import Mathlib

/-!
Verification development for the reddit-insight-analyzer pipeline.

Text is modelled as `List Char` (Unicode code points, as in Python `str`).
Python regular-expression substitution is modelled by explicit left-to-right
scanning functions (`pySub`) with one matcher per compiled pattern; floats
are modelled as exact rationals/reals with round-half-to-even, and the
optional generative capability is an oracle parameter `gen : Str → Str`
(spec §6: `generate(prompt, max_output_units) -> string`).  `json.loads`
(Python stdlib, external to the repository) is abstracted as an oracle
returning `Option` of the parsed shape.
-/

namespace RedditInsight

/-- Text as a list of Unicode code points (Python `str`). -/
abbrev Str := List Char

/-- Conversion from a Lean string literal. -/
def str (s : String) : Str := s.data

/-- Python `\s` / `str.strip` whitespace (ASCII subset model). -/
def pyIsSpace (c : Char) : Bool :=
  c = ' ' || c = '\t' || c = '\n' || c = '\r' || c = '\x0b' || c = '\x0c'

/-- Python `\w` word character (ASCII subset model). -/
def isWordChar (c : Char) : Bool :=
  ('a' ≤ c && c ≤ 'z') || ('A' ≤ c && c ≤ 'Z') || ('0' ≤ c && c ≤ '9') || c = '_'

/-- ASCII letter, for the `&[a-z]+;` HTML-entity pattern under IGNORECASE. -/
def isAsciiLetter (c : Char) : Bool :=
  ('a' ≤ c && c ≤ 'z') || ('A' ≤ c && c ≤ 'Z')

/-- Case-sensitive literal prefix test (Bool-valued). -/
def pre : Str → Str → Bool
  | [], _ => true
  | _ :: _, [] => false
  | p :: ps, c :: cs => c = p && pre ps cs

/-- Case-insensitive literal prefix test, for patterns compiled with IGNORECASE. -/
def ciPre : Str → Str → Bool
  | [], _ => true
  | _ :: _, [] => false
  | p :: ps, c :: cs => c.toLower = p.toLower && ciPre ps cs

/-- Length of the maximal run of characters satisfying `f` at the head. -/
def runLen (f : Char → Bool) (s : Str) : Nat := (s.takeWhile f).length

/-- Python `needle in haystack` substring test. -/
def isSubstr (needle : Str) : Str → Bool
  | [] => pre needle []
  | hay@(_ :: rest) => pre needle hay || isSubstr needle rest

/-- Number of indices at which `needle` occurs in the string (occurrence count
with multiplicity, used to state the spec's occurrence-counting reading). -/
def occCount (needle : Str) : Str → Nat
  | [] => if pre needle [] then 1 else 0
  | hay@(_ :: rest) => (if pre needle hay then 1 else 0) + occCount needle rest

/-- A matcher models one compiled regex: given the character preceding the
current position (for `\b` and MULTILINE `^`) and the remaining input, it
returns the length of the leftmost match anchored here, if any. -/
abbrev Matcher := Option Char → Str → Option Nat

/-- Generic model of `pattern.sub(repl, s)`: scan left to right, replace each
non-overlapping leftmost match, resume after the match.  All patterns of the
source match at least one character; fuel `s.length` therefore suffices and
the fuel-0 branch is unreachable. -/
def substFuel (m : Matcher) (repl : Str) : Nat → Option Char → Str → Str
  | 0, _, s => s
  | _ + 1, _, [] => []
  | fuel + 1, prev, c :: rest =>
    match m prev (c :: rest) with
    | some n =>
      let k := max n 1
      repl ++ substFuel m repl fuel (((c :: rest).take k).getLast?) (rest.drop (k - 1))
    | none => c :: substFuel m repl fuel (some c) rest

/-- `re.sub` over the whole string. -/
def pySub (m : Matcher) (repl : Str) (s : Str) : Str := substFuel m repl s.length none s

/-- Python `str.strip()`. -/
def pyStrip (s : Str) : Str :=
  ((s.dropWhile pyIsSpace).reverse.dropWhile pyIsSpace).reverse

/-- Matcher for `URL_PATTERN = https?://\S+|www\.\S+` (case-sensitive). -/
def urlM : Matcher := fun _ s =>
  let wwwTry : Option Nat :=
    if pre (str "www.") s then
      let k := runLen (fun c => !pyIsSpace c) (s.drop 4)
      if 0 < k then some (4 + k) else none
    else none
  if pre (str "https://") s then
    let k := runLen (fun c => !pyIsSpace c) (s.drop 8)
    if 0 < k then some (8 + k) else wwwTry
  else if pre (str "http://") s then
    let k := runLen (fun c => !pyIsSpace c) (s.drop 7)
    if 0 < k then some (7 + k) else wwwTry
  else wwwTry

/-- Characters removed by `MARKDOWN_PATTERN` (each replaced by a space). -/
def isMarkdownChar (c : Char) : Bool := (str "*_~`#[]()>|").contains c

/-- Matcher for `HTML_ENTITIES = &[a-z]+;|&#\d+;` with IGNORECASE. -/
def entM : Matcher := fun _ s =>
  match s with
  | '&' :: rest =>
    match rest with
    | '#' :: rest2 =>
      let d := runLen Char.isDigit rest2
      if 0 < d && (rest2.drop d).head? = some ';' then some (2 + d + 1) else none
    | _ =>
      let l := runLen isAsciiLetter rest
      if 0 < l && (rest.drop l).head? = some ';' then some (1 + l + 1) else none
  | _ => none

/-- Code points stripped by `EMOJI_PATTERN` (six explicit ranges). -/
def isEmojiChar (c : Char) : Bool :=
  (0x1F600 ≤ c.toNat && c.toNat ≤ 0x1F64F) ||
  (0x1F300 ≤ c.toNat && c.toNat ≤ 0x1F5FF) ||
  (0x1F680 ≤ c.toNat && c.toNat ≤ 0x1F6FF) ||
  (0x1F1E0 ≤ c.toNat && c.toNat ≤ 0x1F1FF) ||
  (0x2600 ≤ c.toNat && c.toNat ≤ 0x26FF) ||
  (0x2700 ≤ c.toNat && c.toNat ≤ 0x27BF)

/-- Is this position at a `\b` boundary before a word character? -/
def atWB (prev : Option Char) : Bool :=
  match prev with
  | none => true
  | some c => !isWordChar c

/-- Matcher for `\bedit\s*\d*\s*:` (IGNORECASE). -/
def editM : Matcher := fun prev s =>
  if atWB prev && ciPre (str "edit") s then
    let r1 := s.drop 4
    let a := runLen pyIsSpace r1
    let r2 := r1.drop a
    let b := runLen Char.isDigit r2
    let r3 := r2.drop b
    let c := runLen pyIsSpace r3
    if (r3.drop c).head? = some ':' then some (4 + a + b + c + 1) else none
  else none

/-- Matcher for `\btl;?dr:?` (IGNORECASE). -/
def tlM : Matcher := fun prev s =>
  if atWB prev then
    let core : Option Nat :=
      if ciPre (str "tl;dr") s then some 5
      else if ciPre (str "tldr") s then some 4
      else none
    match core with
    | some n => if (s.drop n).head? = some ':' then some (n + 1) else some n
    | none => none
  else none

/-- Matcher for `thanks for (reading|coming to my ted talk)` (IGNORECASE). -/
def thanksM : Matcher := fun _ s =>
  if ciPre (str "thanks for reading") s then some (str "thanks for reading").length
  else if ciPre (str "thanks for coming to my ted talk") s then
    some (str "thanks for coming to my ted talk").length
  else none

/-- Last index of `seg` at which `pat` matches case-insensitively. -/
def lastCiAux (pat : Str) : Str → Nat → Option Nat → Option Nat
  | [], _, best => best
  | s@(_ :: rest), i, best =>
    lastCiAux pat rest (i + 1) (if ciPre pat s then some i else best)

/-- Greedy `.*` resolution for `obligatory .* disclaimer`. -/
def lastCi (pat : Str) (s : Str) : Option Nat := lastCiAux pat s 0 none

/-- Matcher for `obligatory .* disclaimer` (IGNORECASE; `.` excludes newline,
`.*` greedy, so the match runs to the last ` disclaimer` on the same line). -/
def obligM : Matcher := fun _ s =>
  if ciPre (str "obligatory ") s then
    let seg := (s.drop 11).takeWhile (fun c => c ≠ '\n')
    match lastCi (str " disclaimer") seg with
    | some i => some (11 + i + 11)
    | none => none
  else none

/-- Matcher for `^(source|sauce):?\s*` (IGNORECASE, MULTILINE). -/
def sourceM : Matcher := fun prev s =>
  if prev = none || prev = some '\n' then
    let base : Option Nat :=
      if ciPre (str "source") s then some 6
      else if ciPre (str "sauce") s then some 5
      else none
    match base with
    | some n =>
      let n2 := if (s.drop n).head? = some ':' then n + 1 else n
      some (n2 + runLen pyIsSpace (s.drop n2))
    | none => none
  else none

/-- Matcher for `\[removed\]|\[deleted\]` (IGNORECASE). -/
def removedM : Matcher := fun _ s =>
  if ciPre (str "[removed]") s then some 9
  else if ciPre (str "[deleted]") s then some 9
  else none

/-- Matcher for `\s+` (whitespace-run collapse). -/
def wsM : Matcher := fun _ s =>
  let k := runLen pyIsSpace s
  if 0 < k then some k else none

/-- `TextProcessor.clean_text`: the six cleaning passes in source order —
URLs, markdown characters, HTML entities, emoji, the six Reddit-noise
patterns, then whitespace normalization and strip. -/
def clean_text (text : Str) : Str :=
  if text = [] then []
  else
    let c1 := pySub urlM [] text
    let c2 := c1.map (fun c => if isMarkdownChar c then ' ' else c)
    let c3 := pySub entM [' '] c2
    let c4 := c3.filter (fun c => !isEmojiChar c)
    let c5 := pySub editM [] c4
    let c6 := pySub tlM [] c5
    let c7 := pySub thanksM [] c6
    let c8 := pySub obligM [] c7
    let c9 := pySub sourceM [] c8
    let c10 := pySub removedM [] c9
    pyStrip (pySub wsM [' '] c10)

/-- Input document (`RedditPost` with its fetched comment bodies). -/
structure RedditPost where
  id : Str
  title : Str
  selftext : Str
  comments : List Str
  score : Int
  num_comments : Nat
  created_utc : ℚ

/-- `ProcessedPost` of `text_processor.py`. -/
structure ProcessedPost where
  id : Str
  original_title : Str
  original_body : Str
  cleaned_title : Str
  cleaned_body : Str
  cleaned_comments : Str
  combined_text : Str
  score : Int
  num_comments : Nat
  created_utc : ℚ
  has_content : Bool
  comment_count : Nat

/-- The comment-accumulation loop of `process_post`: clean each comment, keep
it only when it is non-empty and the running total of kept cleaned-comment
lengths stays strictly below `MAX_COMMENTS_LENGTH = 2000`. -/
def commentsAux (tot : Nat) : List Str → List Str
  | [] => []
  | c :: cs =>
    let cl := clean_text c
    if cl ≠ [] ∧ tot + cl.length < 2000 then cl :: commentsAux (tot + cl.length) cs
    else commentsAux tot cs

/-- Number of comments kept by the loop (the `comment_count` counter). -/
def commentsKept (tot : Nat) : List Str → Nat
  | [] => 0
  | c :: cs =>
    let cl := clean_text c
    if cl ≠ [] ∧ tot + cl.length < 2000 then 1 + commentsKept (tot + cl.length) cs
    else commentsKept tot cs

/-- Python `sep.join`. -/
def joinSep (sep : Str) : List Str → Str
  | [] => []
  | [x] => x
  | x :: xs => x ++ sep ++ joinSep sep xs

/-- `TextProcessor.process_post`. -/
def process_post (post : RedditPost) : ProcessedPost :=
  let cleaned_title := clean_text post.title
  let body0 := clean_text post.selftext
  let cleaned_body := if 1000 < body0.length then body0.take 1000 ++ str "..." else body0
  let texts := commentsAux 0 post.comments
  let cleaned_comments := joinSep (str " | ") texts
  let combined_text :=
    pyStrip (cleaned_title ++ [' '] ++ cleaned_title ++ [' '] ++ cleaned_body ++ [' '] ++
      cleaned_comments)
  { id := post.id
    original_title := post.title
    original_body := post.selftext
    cleaned_title := cleaned_title
    cleaned_body := cleaned_body
    cleaned_comments := cleaned_comments
    combined_text := combined_text
    score := post.score
    num_comments := post.num_comments
    created_utc := post.created_utc
    has_content := 5 < cleaned_title.length
    comment_count := commentsKept 0 post.comments }

/-- `TextProcessor.process_posts`: process then drop contentless posts. -/
def process_posts (posts : List RedditPost) : List ProcessedPost :=
  (posts.map process_post).filter (·.has_content)

/-- Numeric payload of a `SentimentResult`.  The source stores two floats,
`score` (confidence) and `raw_score`; both are determined by this payload:
for the lexicon strategy `raw_score = total / sqrt wc` and
`score = |total| / (5 * sqrt wc)` (0 when `wc = 0`), for the ensemble
strategy `raw_score = compound` and `score = |compound|`. -/
inductive RawScore where
  | lex (total : Int) (wc : Nat)
  | ml (compound : ℚ)
deriving DecidableEq

/-- `SentimentResult` of `nlp_analyzer.py`. -/
structure SentimentResult where
  label : Str
  raw : RawScore
deriving DecidableEq

/-- `NLPAnalyzer.SENTIMENT_LEXICON`. -/
def SENTIMENT_LEXICON : List (Str × Int) :=
  [(str "amazing", 5), (str "excellent", 5), (str "perfect", 5), (str "love", 4),
   (str "great", 4), (str "awesome", 4), (str "fantastic", 5), (str "wonderful", 4),
   (str "best", 4), (str "impressed", 4),
   (str "good", 3), (str "nice", 3), (str "happy", 3), (str "helpful", 3),
   (str "smooth", 3), (str "fast", 3), (str "reliable", 3), (str "solid", 3),
   (str "better", 3), (str "improved", 3),
   (str "okay", 1), (str "fine", 1), (str "decent", 2), (str "works", 2),
   (str "useful", 2),
   (str "issue", -1), (str "concern", -1), (str "confusing", -1), (str "mediocre", -1),
   (str "bad", -2), (str "poor", -2), (str "problem", -2), (str "annoying", -2),
   (str "disappointed", -3), (str "frustrating", -2), (str "slow", -2), (str "laggy", -2),
   (str "buggy", -2), (str "broken", -2), (str "crash", -2), (str "error", -2),
   (str "fail", -2), (str "failed", -2), (str "freezing", -2),
   (str "terrible", -4), (str "awful", -4), (str "horrible", -4), (str "worst", -4),
   (str "hate", -3), (str "useless", -3), (str "defective", -3), (str "garbage", -3),
   (str "waste", -3), (str "scam", -4)]

/-- Maximal word-character runs, collected with an accumulator holding the
current run reversed; models `re.findall(r'\b\w+\b', text)`. -/
def wordRunsAux (acc : Str) : Str → List Str
  | [] => if acc = [] then [] else [acc.reverse]
  | c :: rest =>
    if isWordChar c then wordRunsAux (c :: acc) rest
    else (if acc = [] then [] else [acc.reverse]) ++ wordRunsAux [] rest

/-- Maximal word-character runs, modelling `re.findall(r'\b\w+\b', text)`. -/
def wordRuns (s : Str) : List Str := wordRunsAux [] s

/-- Tokens of `analyze_sentiment_lexicon`: word runs of the lower-cased text. -/
def lexTokens (t : Str) : List Str := wordRuns (t.map Char.toLower)

/-- Python `word in SENTIMENT_LEXICON` + `SENTIMENT_LEXICON[word]`. -/
def lexLookup (w : Str) : Option Int :=
  (SENTIMENT_LEXICON.find? (fun e => e.1 == w)).map (·.2)

/-- The summation loop of `analyze_sentiment_lexicon`: (score, word_count). -/
def lexTotals (t : Str) : Int × Nat :=
  (lexTokens t).foldl
    (fun acc w => match lexLookup w with
      | some v => (acc.1 + v, acc.2 + 1)
      | none => acc)
    (0, 0)

/-- `analyze_sentiment_lexicon`.  With `normalized = total / sqrt wc`
(and `0` when `wc = 0`), the float comparisons `normalized > 0.5` and
`normalized < -0.5` are expressed exactly over the integers:
for `wc > 0`, `total / sqrt wc > 1/2 ↔ 0 < total ∧ wc < 4*total*total`,
and symmetrically for the negative branch (see `lexLabel_pos_iff`). -/
def analyze_sentiment_lexicon (t : Str) : SentimentResult :=
  let p := lexTotals t
  let s := p.1
  let wc := p.2
  let label :=
    if 0 < s ∧ (wc : Int) < 4 * s * s then str "positive"
    else if s < 0 ∧ (wc : Int) < 4 * s * s then str "negative"
    else str "neutral"
  ⟨label, .lex s wc⟩

/-- Analyzer configuration: the strategy flag plus the external analyzers
(VADER compound score and TextBlob polarity) as oracles; `none` models an
unavailable analyzer. -/
structure AnalyzerCfg where
  use_ml_models : Bool
  vader : Option (Str → ℚ)
  textblob : Option (Str → ℚ)

/-- `analyze_sentiment_ml`: VADER compound, optionally blended 60/40 with
TextBlob polarity, thresholds ±0.05; falls back to the lexicon when VADER
is unavailable. -/
def analyze_sentiment_ml (cfg : AnalyzerCfg) (t : Str) : SentimentResult :=
  match cfg.vader with
  | none => analyze_sentiment_lexicon t
  | some v =>
    let compound := v t
    let label0 :=
      if 1/20 ≤ compound then str "positive"
      else if compound ≤ -(1/20) then str "negative"
      else str "neutral"
    match cfg.textblob with
    | none => ⟨label0, .ml compound⟩
    | some tb =>
      let combined := compound * (6/10) + tb t * (4/10)
      let label :=
        if 1/20 ≤ combined then str "positive"
        else if combined ≤ -(1/20) then str "negative"
        else str "neutral"
      ⟨label, .ml combined⟩

/-- `analyze_sentiment`: strategy dispatch. -/
def analyze_sentiment (cfg : AnalyzerCfg) (t : Str) : SentimentResult :=
  if cfg.use_ml_models ∧ cfg.vader.isSome then analyze_sentiment_ml cfg t
  else analyze_sentiment_lexicon t

/-- `AnalyzedPost` of `nlp_analyzer.py`. -/
structure AnalyzedPost where
  id : Str
  title : Str
  body : Str
  cleaned_comments : Str
  score : Int
  num_comments : Nat
  sentiment : SentimentResult
  impact_score : Int
deriving DecidableEq

/-- `NLPAnalyzer.analyze_posts`: sentiment on `combined_text`, impact score
`score + num_comments + (10 if negative else 0)`. -/
def analyze_posts (cfg : AnalyzerCfg) (processed : List ProcessedPost) : List AnalyzedPost :=
  processed.map (fun post =>
    let sentiment := analyze_sentiment cfg post.combined_text
    let negative_weight : Int := if sentiment.label = str "negative" then 10 else 0
    { id := post.id
      title := post.cleaned_title
      body := post.cleaned_body
      cleaned_comments := post.cleaned_comments
      score := post.score
      num_comments := post.num_comments
      sentiment := sentiment
      impact_score := post.score + post.num_comments + negative_weight })

/-- Round half to even (Python `round` on exact rationals). -/
def rhe (q : ℚ) : Int :=
  let f := ⌊q⌋
  let r := q - f
  if r < 1/2 then f
  else if 1/2 < r then f + 1
  else if f % 2 = 0 then f else f + 1

/-- Count of posts whose sentiment label equals `lab`. -/
def countLabel (lab : Str) (l : List AnalyzedPost) : Nat :=
  l.countP (fun p => p.sentiment.label == lab)

/-- The three percentages of `calculate_sentiment_distribution`. -/
structure SentimentDist where
  positive : ℚ
  neutral : ℚ
  negative : ℚ
deriving DecidableEq

/-- `calculate_sentiment_distribution`: `round(count/total*100, 1)` per label,
all-zero for the empty batch.  `round(x, 1)` is modelled exactly as
`rhe (x*10) / 10`. -/
def calculate_sentiment_distribution (l : List AnalyzedPost) : SentimentDist :=
  if l.isEmpty then ⟨0, 0, 0⟩
  else
    let T : ℚ := l.length
    ⟨(rhe ((countLabel (str "positive") l : ℚ) / T * 100 * 10) : ℚ) / 10,
     (rhe ((countLabel (str "neutral") l : ℚ) / T * 100 * 10) : ℚ) / 10,
     (rhe ((countLabel (str "negative") l : ℚ) / T * 100 * 10) : ℚ) / 10⟩

/-- `NLPAnalyzer.THEME_KEYWORDS` (fixed taxonomy, insertion order). -/
def THEME_KEYWORDS : List (Str × List Str) :=
  [(str "Battery & Power",
    [str "battery", str "charge", str "charging", str "drain", str "power", str "sot",
     str "fast charging", str "wireless charging", str "dead", str "percentage"]),
   (str "Camera & Photography",
    [str "camera", str "photo", str "picture", str "lens", str "zoom", str "portrait",
     str "night sight", str "video", str "recording", str "selfie", str "megapixel"]),
   (str "Software & Updates",
    [str "update", str "android", str "software", str "bug", str "patch", str "fix",
     str "feature", str "app", str "version", str "beta", str "stable"]),
   (str "Hardware Quality",
    [str "screen", str "display", str "build", str "quality", str "glass", str "speaker",
     str "fingerprint", str "crack", str "scratch", str "durable", str "design"]),
   (str "Performance",
    [str "performance", str "fast", str "slow", str "lag", str "smooth", str "heat",
     str "overheating", str "hot", str "throttle", str "ram", str "memory", str "speed"]),
   (str "Customer Support",
    [str "support", str "warranty", str "rma", str "repair", str "replacement",
     str "refund", str "return", str "google", str "response", str "shipping"]),
   (str "Connectivity",
    [str "wifi", str "bluetooth", str "signal", str "network", str "5g", str "lte",
     str "connection", str "drop", str "esim", str "carrier", str "cellular"])]

/-- Per-theme accumulator: keyword-hit count, sentiment tally, examples. -/
structure ThemeAcc where
  count : Nat
  pos : Nat
  neu : Nat
  neg : Nat
  examples : List Str
deriving DecidableEq

/-- The text a theme is matched against: `f"{post.title} {post.body}".lower()`
(comments excluded). -/
def themeText (p : AnalyzedPost) : Str := (p.title ++ [' '] ++ p.body).map Char.toLower

/-- `sum(1 for kw in keywords if kw in text)`: number of keywords present. -/
def kwMatches (kws : List Str) (text : Str) : Nat := kws.countP (fun kw => isSubstr kw text)

/-- Sentiment tally update `theme_sentiment[theme][label] += 1`.  The labels
reaching this point are exactly the three keys produced by the scorer. -/
def tallyAdd (lab : Str) (a : ThemeAcc) : ThemeAcc :=
  if lab = str "positive" then { a with pos := a.pos + 1 }
  else if lab = str "neutral" then { a with neu := a.neu + 1 }
  else { a with neg := a.neg + 1 }

/-- Per-post, per-theme accumulator update of `extract_themes`. -/
def updAcc (p : AnalyzedPost) (kws : List Str) (a : ThemeAcc) : ThemeAcc :=
  let hits := kwMatches kws (themeText p)
  if 0 < hits then
    let a1 := tallyAdd p.sentiment.label { a with count := a.count + hits }
    if a1.examples.length < 2 then { a1 with examples := a1.examples ++ [p.title.take 70] }
    else a1
  else a

/-- Accumulators after the per-post loop, aligned with the taxonomy order. -/
def accsFor (posts : List AnalyzedPost) : List ThemeAcc :=
  posts.foldl
    (fun accs p => List.zipWith (fun e a => updAcc p e.2 a) THEME_KEYWORDS accs)
    (THEME_KEYWORDS.map (fun _ => ⟨0, 0, 0, 0, []⟩))

/-- One entry of the theme list returned by `extract_themes`. -/
structure ThemeInfo where
  name : Str
  count : Nat
  mood : Str
  explanation : Str
  examples : List Str
deriving DecidableEq

/-- Decimal digits of a natural number. -/
def natStr (n : Nat) : Str := (toString n).data

/-- Decimal representation of an integer (Python `str`/f-string on int). -/
def intStr (i : Int) : Str := (toString i).data

/-- Result building of `extract_themes` for one theme with `count > 0`:
mood classification (`neg_pct > 0.5` ⟺ `total < 2*neg`) and the templated
explanation; `int(pct*100)` is floor, i.e. natural division. -/
def mkTheme (nm : Str) (a : ThemeAcc) : ThemeInfo :=
  let total := a.pos + a.neu + a.neg
  if 0 < total then
    if total < 2 * a.neg then
      ⟨nm, a.count, str "negative",
        str "Predominantly negative (" ++ natStr (100 * a.neg / total) ++
          str "%). Users expressing frustration.", a.examples⟩
    else if total < 2 * a.pos then
      ⟨nm, a.count, str "positive",
        str "Mostly positive (" ++ natStr (100 * a.pos / total) ++
          str "%). Users are satisfied.", a.examples⟩
    else
      ⟨nm, a.count, str "mixed",
        str "Mixed feedback with " ++ natStr a.count ++ str " mentions.", a.examples⟩
  else
    ⟨nm, a.count, str "neutral", natStr a.count ++ str " mentions in discussions.", a.examples⟩

/-- The total preorder `key b ≤ key a` underlying a descending stable sort. -/
def keyRel {α : Type} (key : α → Int) : α → α → Prop := fun a b => key b ≤ key a

instance {α : Type} (key : α → Int) : DecidableRel (keyRel key) := fun a b => by
  unfold keyRel
  infer_instance

/-- Descending key order refined by ascending position on ties — the strict
order that uniquely characterises a stable descending sort of a tagged list. -/
def tagRel {α : Type} (key : α → Int) : Nat × α → Nat × α → Prop :=
  fun x y => key y.2 < key x.2 ∨ (key x.2 = key y.2 ∧ x.1 ≤ y.1)

instance {α : Type} (key : α → Int) : DecidableRel (tagRel key) := fun x y => by
  unfold tagRel
  infer_instance

/-- Python's `sorted(l, key=key, reverse=True)`: a stable sort placing larger
keys first.  All stable sorts agree, so Mathlib's (stable) insertion sort
with the total preorder `key b ≤ key a` models timsort exactly. -/
def pySortDesc {α : Type} (key : α → Int) (l : List α) : List α :=
  l.insertionSort (keyRel key)

/-- `NLPAnalyzer.extract_themes`: build entries for themes with positive
count in taxonomy order, stable-sort by count descending, return top 6. -/
def extract_themes (posts : List AnalyzedPost) : List ThemeInfo :=
  let accs := accsFor posts
  let results := (THEME_KEYWORDS.zip accs).filterMap
    (fun e => if 0 < e.2.count then some (mkTheme e.1.1 e.2) else none)
  (pySortDesc (fun t => (t.count : Int)) results).take 6

/-- One entry of `get_high_impact_issues`' result. -/
structure Issue where
  title : Str
  impact_score : Int
  score : Int
  comments : Nat
  sentiment : Str
deriving DecidableEq

/-- The per-post dict built by `get_high_impact_issues`. -/
def issueOf (p : AnalyzedPost) : Issue :=
  ⟨p.title.take 100, p.impact_score, p.score, p.num_comments, p.sentiment.label⟩

/-- `NLPAnalyzer.get_high_impact_issues`: stable sort by impact score
descending, take `top_n`. -/
def get_high_impact_issues (posts : List AnalyzedPost) (top_n : Nat) : List Issue :=
  ((pySortDesc (·.impact_score) posts).take top_n).map issueOf

/-- Python `max(x :: l, key=key)`: first maximal element. -/
def pyMaxBy {α : Type} (key : α → Int) (x : α) (l : List α) : α :=
  l.foldl (fun best y => if key best < key y then y else best) x

/-- The five-key dict shape requested from the structured-insights prompt,
and also the shape of the fixed empty structure returned on parse failure. -/
structure Insights where
  likes : List Str
  frustrations : List Str
  improving : List Str
  worsening : List Str
  opportunities : List Str
deriving DecidableEq

/-- The dict of empty lists returned by `generate_deep_insights` when no
JSON could be extracted or parsed. -/
def emptyInsights : Insights := ⟨[], [], [], [], []⟩

/-- `re.search(r'\x7b[\s\S]*\x7d', response)`: the segment from the first
opening brace to the last closing brace after it, if both exist. -/
def findBraced (s : Str) : Option Str :=
  match s.dropWhile (fun c => c ≠ Char.ofNat 123) with
  | [] => none
  | b :: rest =>
    let r := rest.reverse.dropWhile (fun c => c ≠ Char.ofNat 125)
    if r = [] then none else some (b :: r.reverse)

/-- Python dict truthiness of a `generate_deep_insights` result: the dict
always carries its five keys (parse success yields the requested five-key
object, parse failure yields the fixed empty structure), and a non-empty
dict is truthy; so the guard `if ai_insights:` always passes. -/
def insightsTruthy (_ : Insights) : Bool := true

/-- Entry of `posts_data` passed to `generate_deep_insights`. -/
structure DIPost where
  title : Str
  label : Str

/-- Entry of `themes_data` passed to `generate_deep_insights`. -/
structure DITheme where
  name : Str

/-- Entry of `posts_data` passed to the AI executive-summary prompt. -/
structure PostData where
  title : Str
  body : Str
  comments : Str
  label : Str

/-- Python `str.upper()` (ASCII model). -/
def upperStr (s : Str) : Str := s.map Char.toUpper

/-- `f"{x:.1f}"` on an exact rational (round half to even at one decimal). -/
def fmtQ1 (q : ℚ) : Str :=
  let n := rhe (q * 10)
  (if n < 0 then str "-" else []) ++ natStr (n.natAbs / 10) ++ str "." ++ natStr (n.natAbs % 10)

/-- `f"{x:.0f}"` on an exact rational. -/
def fmtF0 (q : ℚ) : Str := intStr (rhe q)

/-- `f"{x:.1f}"` on an integer-valued impact score. -/
def fmtF1Int (i : Int) : Str := intStr i ++ str ".0"

/-- `chr(10).join(f"- \x7bt\x7d" ...) if titles else "- None"`. -/
def dashJoin (ts : List Str) : Str :=
  if ts = [] then str "- None"
  else joinSep (str "\n") (ts.map (fun t => str "- " ++ t))

/-- The structured-insights prompt of `generate_deep_insights`. -/
def diPrompt (negT posT themeNames : List Str) : Str :=
  str "Analyze these Reddit discussions for product insights:\n\nNEGATIVE/FRUSTRATED POSTS:\n" ++
  dashJoin negT ++
  str "\n\nPOSITIVE/SATISFIED POSTS:\n" ++
  dashJoin posT ++
  str "\n\nTOP THEMES: " ++ joinSep (str ", ") themeNames ++
  str "\n\nProvide analysis in this exact JSON format:\n\x7b\n  \"likes\": [\"specific thing users like 1\", \"specific thing users like 2\", \"specific thing users like 3\"],\n  \"frustrations\": [\"specific frustration 1\", \"specific frustration 2\", \"specific frustration 3\"],\n  \"improving\": [\"thing getting better based on posts\"],\n  \"worsening\": [\"thing getting worse based on posts\"],\n  \"opportunities\": [\"product improvement opportunity 1\", \"product improvement opportunity 2\"]\n\x7d\n\nBe specific - reference actual topics from the posts. Return ONLY valid JSON."

/-- `AIInsights.generate_deep_insights`, with the provider call `_generate`
abstracted as the oracle `gen` (spec §6) and `json.loads` abstracted as
`jsonLoadsInsights` (`none` models a raised exception).  On any failure the
fixed empty structure is returned. -/
def generate_deep_insights (gen : Str → Str) (jsonLoadsInsights : Str → Option Insights)
    (posts : List DIPost) (themes : List DITheme) : Insights :=
  let negative_posts := posts.filter (fun p => p.label = str "negative")
  let positive_posts := posts.filter (fun p => p.label = str "positive")
  let neg_titles := (negative_posts.take 8).map (fun p => p.title.take 80)
  let pos_titles := (positive_posts.take 8).map (fun p => p.title.take 80)
  let theme_names := (themes.take 5).map (·.name)
  let response := gen (diPrompt neg_titles pos_titles theme_names)
  match findBraced response with
  | some js =>
    match jsonLoadsInsights js with
    | some d => d
    | none => emptyInsights
  | none => emptyInsights

/-- One parsed entry of the action-items JSON. -/
structure ActionItem where
  action : Str
  priority : Str
  team : Str
deriving DecidableEq

/-- The action-items prompt of `generate_action_items`. -/
def aiItemsPrompt (issues_text themes_text : Str) : Str :=
  str "Based on these high-impact user issues and themes from Reddit:\n\nISSUES:\n" ++
  issues_text ++
  str "\n\nTHEMES: " ++ themes_text ++
  str "\n\nGenerate 3-5 specific, actionable tasks for the product team.\nFor each task, provide:\n1. Action: The specific thing to do (start with verb)\n2. Priority: High/Medium/Low\n3. Team: Engineering/Design/Product/Marketing\n\nProvide response in this JSON format:\n\x7b\n    \"items\": [\n        \x7b\"action\": \"Fix camera crashing bug on startup\", \"priority\": \"High\", \"team\": \"Engineering\"\x7d,\n        \x7b\"action\": \"Update return policy documentation\", \"priority\": \"Medium\", \"team\": \"cx\"\x7d\n    ]\n\x7d\nReturn ONLY valid JSON."

/-- `AIInsights.generate_action_items`.  `jsonLoadsItems` models
`json.loads` followed by `data.get('items', [])` (`none` = loads raised;
`some items` = the extracted list, empty when the key is absent).  Any
failure yields the empty list. -/
def generate_action_items (gen : Str → Str) (jsonLoadsItems : Str → Option (List ActionItem))
    (high_impact_issues : List Issue) (themes : List ThemeInfo) : List ActionItem :=
  let issues_text := joinSep (str "\n") ((high_impact_issues.take 5).map (fun i =>
    str "- " ++ i.title ++ str " (Impact: " ++ fmtF1Int i.impact_score ++ str ")"))
  let themes_text := joinSep (str ", ") ((themes.take 3).map (·.name))
  let response := gen (aiItemsPrompt issues_text themes_text)
  match findBraced response with
  | some js =>
    match jsonLoadsItems js with
    | some items => items
    | none => []
  | none => []

/-- The enumerated per-post detail lines of the AI executive-summary prompt. -/
def execDetails : Nat → List PostData → List Str
  | _, [] => []
  | i, p :: rest =>
    let title := p.title.take 100
    let body := if p.body ≠ [] then p.body.take 150 else []
    let comments := if p.comments ≠ [] then p.comments.take 200 else []
    let d0 := natStr i ++ str ". [" ++ upperStr p.label ++ str "] " ++ title
    let d1 := if body ≠ [] then d0 ++ str "\n   Body: " ++ body else d0
    let d2 := if comments ≠ [] then d1 ++ str "\n   User comments: " ++ comments else d1
    d2 :: execDetails (i + 1) rest

/-- The executive-summary prompt of `AIInsights.generate_executive_summary`. -/
def execPrompt (subreddit posts_text : Str) (dist : SentimentDist) : Str :=
  str "You are a senior product analyst reviewing Reddit discussions from r/" ++ subreddit ++
  str ".\n        \nPOSTS WITH USER DISCUSSIONS:\n" ++ posts_text ++
  str "\n\nSENTIMENT BREAKDOWN:\n- Positive: " ++ fmtQ1 dist.positive ++
  str "%\n- Neutral: " ++ fmtQ1 dist.neutral ++
  str "%\n- Negative: " ++ fmtQ1 dist.negative ++
  str "%\n\nBased on the posts AND the user comments, write an insightful executive summary (4-5 sentences) that:\n1. Identifies the SPECIFIC issues/topics users are actually discussing (not generic themes)\n2. Explains WHY users feel the way they do based on their comments\n3. Highlights the most critical pain points that need attention\n4. Notes any positive aspects users appreciate\n5. Provides ONE specific, actionable recommendation\n\nBe very specific - cite actual topics from the posts. Write like a product manager reporting to executives."

/-- `AIInsights.generate_executive_summary`: prompt from the first 12 posts
and the sentiment percentages, answered by the oracle. -/
def aiGenExecSummary (gen : Str → Str) (subreddit : Str) (posts : List PostData)
    (dist : SentimentDist) : Str :=
  let posts_text := joinSep (str "\n") (execDetails 1 (posts.take 12))
  gen (execPrompt subreddit posts_text dist)

/-- The rule-based fallback of `ReportGenerator.generate_executive_summary`:
up to five templated sentence fragments joined with spaces. -/
def ruleBasedSummary (analyzed : List AnalyzedPost) (themes : List ThemeInfo)
    (dist : SentimentDist) : Str :=
  let total := analyzed.length
  let neg := dist.negative
  let pos := dist.positive
  let neu := dist.neutral
  let p1 :=
    if 50 < neg then
      str "Analysis of " ++ natStr total ++
        str " recent posts reveals predominantly negative sentiment (" ++ fmtF0 neg ++
        str "%), indicating widespread user concerns."
    else if 50 < pos then
      str "Analysis of " ++ natStr total ++
        str " recent posts shows generally positive sentiment (" ++ fmtF0 pos ++
        str "%), reflecting user satisfaction."
    else
      str "Analysis of " ++ natStr total ++
        str " recent posts reveals mixed sentiment (Positive: " ++ fmtF0 pos ++
        str "%, Neutral: " ++ fmtF0 neu ++ str "%, Negative: " ++ fmtF0 neg ++ str "%)."
  let parts1 := [p1]
  let parts2 :=
    if themes ≠ [] then
      parts1 ++ [str "Key discussion areas include " ++
        joinSep (str ", ") ((themes.take 3).map (·.name)) ++ str "."]
    else parts1
  let negative_posts := analyzed.filter (fun p => p.sentiment.label = str "negative")
  let parts3 :=
    match negative_posts with
    | [] => parts2
    | x :: rest =>
      let top_issue := pyMaxBy (·.impact_score) x rest
      parts2 ++ [str "Notable concerns include: \"" ++ top_issue.title.take 60 ++ str "...\""]
  let positive_posts := analyzed.filter (fun p => p.sentiment.label = str "positive")
  let parts4 :=
    match positive_posts with
    | [] => parts3
    | x :: rest =>
      let top_praise := pyMaxBy (·.score) x rest
      parts3 ++ [str "Users appreciate certain aspects, as shown in: \"" ++
        top_praise.title.take 50 ++ str "...\""]
  let high_engagement := pySortDesc (fun p => (p.num_comments : Int)) analyzed
  let parts5 :=
    match high_engagement with
    | [] => parts4
    | h :: _ =>
      parts4 ++ [str "The most engaged discussions have " ++ natStr h.num_comments ++
        str "+ comments, indicating high community interest in these topics."]
  joinSep [' '] parts5

/-- `ReportGenerator.generate_executive_summary`: AI attempt (accepted only
when non-empty and longer than 50), rule-based fallback. -/
def generate_executive_summary (useAI : Bool) (gen : Str → Str) (subreddit : Str)
    (analyzed : List AnalyzedPost) (themes : List ThemeInfo) (dist : SentimentDist) : Str :=
  if analyzed.length = 0 then str "No posts available for analysis."
  else
    let aiResult : Option Str :=
      if useAI then
        let posts_data := (analyzed.take 20).map (fun p =>
          PostData.mk p.title (p.body.take 200) (p.cleaned_comments.take 300) p.sentiment.label)
        let s := aiGenExecSummary gen subreddit posts_data dist
        if s ≠ [] ∧ 50 < s.length then some s else none
      else none
    match aiResult with
    | some s => s
    | none => ruleBasedSummary analyzed themes dist

/-- `ReportGenerator.generate_product_insights`: deterministic baseline
(top-3 positive by score → likes, top-3 negative by impact → frustrations,
theme moods → improving/worsening, fixed placeholder for each empty
category), then — when AI is configured — the deep-insights call whose
result is returned whenever the returned dict is truthy. -/
def generate_product_insights (useAI : Bool) (gen : Str → Str)
    (jsonLoadsInsights : Str → Option Insights)
    (analyzed : List AnalyzedPost) (themes : List ThemeInfo) : Insights :=
  let positive_posts := analyzed.filter (fun p => p.sentiment.label = str "positive")
  let negative_posts := analyzed.filter (fun p => p.sentiment.label = str "negative")
  let likes0 := ((pySortDesc (·.score) positive_posts).take 3).map (·.title.take 100)
  let likes := if likes0 = [] then [str "No strongly positive posts in this sample"] else likes0
  let frus0 := ((pySortDesc (·.impact_score) negative_posts).take 3).map (·.title.take 100)
  let frustrations :=
    if frus0 = [] then [str "No significant frustrations detected"] else frus0
  let worsening0 := (themes.filter (fun t => t.mood = str "negative")).map (·.name)
  let improving0 := (themes.filter (fun t => t.mood = str "positive")).map (·.name)
  let worsening := if worsening0 = [] then [str "No clear worsening trends detected"] else worsening0
  let improving := if improving0 = [] then [str "No clear improving trends detected"] else improving0
  let baseline : Insights :=
    { likes := likes, frustrations := frustrations, improving := improving,
      worsening := worsening,
      opportunities := [str "Increase sample size for better opportunity detection"] }
  if useAI then
    let posts_data := (analyzed.take 30).map (fun p => DIPost.mk p.title p.sentiment.label)
    let themes_data := (themes.take 5).map (fun t => DITheme.mk t.name)
    let ai_insights := generate_deep_insights gen jsonLoadsInsights posts_data themes_data
    if insightsTruthy ai_insights then ai_insights else baseline
  else baseline

/-- `InsightReport` of `report_generator.py`.  `timestamp` is the
`datetime.now().isoformat()` value, passed as a parameter. -/
structure InsightReport where
  subreddit : Str
  posts_analyzed : Nat
  analysis_mode : Str
  timestamp : Str
  processing_time_ms : ℚ
  executive_summary : Str
  sentiment_distribution : SentimentDist
  themes : List ThemeInfo
  product_insights : Insights
  high_impact_issues : List Issue
  ai_enhanced : Bool
  action_items : Option (List ActionItem)

/-- `ReportGenerator.generate_full_report`.  When the AI capability is
configured, the `hasattr(self.ai, 'generate_action_items')` test is true
(the method exists on the class), the call — total in this model — returns
its parsed list, and `ai_enhanced` is set to `True` in the same branch. -/
def generate_full_report (useAI : Bool) (gen : Str → Str)
    (jsonLoadsInsights : Str → Option Insights)
    (jsonLoadsItems : Str → Option (List ActionItem))
    (subreddit : Str) (analyzed : List AnalyzedPost) (themes : List ThemeInfo)
    (sentiment_dist : SentimentDist) (high_impact : List Issue)
    (analysis_mode : Str) (processing_time_ms : ℚ) (timestamp : Str) : InsightReport :=
  let executive_summary :=
    generate_executive_summary useAI gen subreddit analyzed themes sentiment_dist
  let product_insights := generate_product_insights useAI gen jsonLoadsInsights analyzed themes
  let actionPair : Option (List ActionItem) × Bool :=
    if useAI then (some (generate_action_items gen jsonLoadsItems high_impact themes), true)
    else (none, false)
  { subreddit := subreddit
    posts_analyzed := analyzed.length
    analysis_mode := analysis_mode
    timestamp := timestamp
    processing_time_ms := processing_time_ms
    executive_summary := executive_summary
    sentiment_distribution := sentiment_dist
    themes := themes
    product_insights := product_insights
    high_impact_issues := high_impact
    ai_enhanced := actionPair.2
    action_items := actionPair.1 }

/-- Does the string contain a match of `URL_PATTERN` at some position?  This
is the formal reading of "contains a URL substring". -/
def containsUrl : Str → Bool
  | [] => (urlM none []).isSome
  | s@(_ :: rest) => (urlM none s).isSome || containsUrl rest

/-- Position of a theme name in the fixed taxonomy order. -/
def taxPosAux (nm : Str) : List Str → Nat
  | [] => 0
  | x :: xs => if x = nm then 0 else 1 + taxPosAux nm xs

/-- Taxonomy index of a theme name. -/
def taxPos (nm : Str) : Nat := taxPosAux nm (THEME_KEYWORDS.map Prod.fst)

/-- Keyword list of the first taxonomy theme (`Battery & Power`). -/
def battKeywords : List Str := ((THEME_KEYWORDS.head?).map (·.2)).getD []

/-- Occurrence-count total of a keyword list over a batch, with substring
multiplicity — the literal "total number of keyword occurrences" reading. -/
def themeOccTotal (kws : List Str) (posts : List AnalyzedPost) : Nat :=
  (posts.map (fun p => (kws.map (fun kw => occCount kw (themeText p))).sum)).sum

/-- Tag each element with its position, starting from `i`. -/
def tagFrom {α : Type} (i : Nat) : List α → List (Nat × α)
  | [] => []
  | x :: xs => (i, x) :: tagFrom (i + 1) xs

/-- The generative oracle that always answers with the empty string
(spec §6: empty string signals "unavailable/failed"). -/
def genEmpty : Str → Str := fun _ => []

/-- A `json.loads` oracle that always raises. -/
def jsonNoneI : Str → Option Insights := fun _ => none

/-- A `json.loads` oracle for action items that always raises. -/
def jsonNoneA : Str → Option (List ActionItem) := fun _ => none

/-- Lexicon-strategy analyzer configuration (`use_ml_models = False`). -/
def cfgLex : AnalyzerCfg := ⟨false, none, none⟩

/-- Witness input: a processed post whose combined text is "terrible". -/
def ppTerrible : ProcessedPost :=
  { id := [], original_title := [], original_body := [], cleaned_title := str "t",
    cleaned_body := [], cleaned_comments := [], combined_text := str "terrible",
    score := 2, num_comments := 3, created_utc := 0, has_content := true, comment_count := 0 }

/-- Witness input: a processed post whose title mentions a battery. -/
def ppBattery : ProcessedPost :=
  { id := [], original_title := [], original_body := [], cleaned_title := str "battery",
    cleaned_body := [], cleaned_comments := [], combined_text := [],
    score := 0, num_comments := 0, created_utc := 0, has_content := true, comment_count := 0 }

/-- Counterexample input: a title repeating one keyword twice. -/
def ppBatteryTwice : ProcessedPost :=
  { id := [], original_title := [], original_body := [],
    cleaned_title := str "battery battery", cleaned_body := [], cleaned_comments := [],
    combined_text := [], score := 0, num_comments := 0, created_utc := 0,
    has_content := true, comment_count := 0 }

/-- Counterexample input: an emoji interrupting an almost-URL in the title. -/
def ppUrl : RedditPost := ⟨[], str "h😀ttp://x", [], [], 0, 0, 0⟩

/-- Witness input: a plain short title. -/
def ppHello : RedditPost := ⟨[], str "hello", [], [], 0, 0, 0⟩

/-- A 666-character cleaned-stable comment body. -/
def aComment : Str := List.replicate 666 'a'

/-- Counterexample input: three comments of 666 characters each. -/
def ppCap : RedditPost := ⟨[], str "t", [], [aComment, aComment, aComment], 0, 0, 0⟩

/-- Witness configuration: ensemble strategy with a VADER oracle returning
compound 1/2 and no TextBlob. -/
def cfgMl : AnalyzerCfg := ⟨true, some (fun _ => 1/2), none⟩

/-! ## Theorems -/

/-- When the generative oracle answers `""`, no bracketed structure exists and
`generate_deep_insights` returns the fixed empty structure. -/
theorem deep_insights_of_empty_gen (jp : Str → Option Insights)
    (posts : List DIPost) (themes : List DITheme) :
    generate_deep_insights genEmpty jp posts themes = emptyInsights := rfl

/-- C1: the claim says that when the generative capability is configured but
returns an empty (or unparseable) structured-insights response,
`generate_product_insights` returns the deterministic baseline unchanged.
The code instead returns the five-key dict of empty lists: the failure dict
is truthy, so `if ai_insights:` accepts it.  This theorem evaluates the code
at the failing input (oracle constantly `""`): the result is `emptyInsights`,
while the deterministic baseline (the same function without AI) always has a
non-empty `likes` list (top-3 titles or the fixed placeholder), hence the
baseline is never equal to what is returned. -/
theorem product_insights_ai_failure_bug (jp : Str → Option Insights)
    (analyzed : List AnalyzedPost) (themes : List ThemeInfo) :
    generate_product_insights true genEmpty jp analyzed themes = emptyInsights ∧
    (generate_product_insights false genEmpty jp analyzed themes).likes ≠ [] ∧
    emptyInsights.likes = [] := by
  refine ⟨rfl, ?_, rfl⟩
  unfold generate_product_insights
  dsimp only
  split
  · next h => simp at h
  · dsimp only
    split
    · simp
    · next h => exact h

/-- C2 counterexample: with the generative capability configured but always
returning `""`, the action-items parse yields the empty list, yet the final
report has `ai_enhanced = true` — the claim asserts it would be `false`. -/
theorem report_ai_flag_cex :
    (generate_full_report true genEmpty jsonNoneI jsonNoneA [] [] [] ⟨0, 0, 0⟩ [] [] 0
      []).ai_enhanced = true ∧
    generate_action_items genEmpty jsonNoneA [] [] = [] := ⟨rfl, rfl⟩

/-- C2 (amended): `ai_enhanced` is true exactly when the AI capability is
configured — the source sets it unconditionally right after calling
`generate_action_items` (which exists and, parse failure included, returns a
list rather than raising), so a non-empty parse is not required; the
action-items field is the parse result whenever AI is configured. -/
theorem report_ai_flag (useAI : Bool) (gen : Str → Str)
    (jpI : Str → Option Insights) (jpA : Str → Option (List ActionItem))
    (subreddit : Str) (analyzed : List AnalyzedPost) (themes : List ThemeInfo)
    (dist : SentimentDist) (high_impact : List Issue) (mode : Str) (t : ℚ) (ts : Str) :
    (generate_full_report useAI gen jpI jpA subreddit analyzed themes dist high_impact mode t
      ts).ai_enhanced = useAI ∧
    (generate_full_report useAI gen jpI jpA subreddit analyzed themes dist high_impact mode t
      ts).action_items =
      (if useAI then some (generate_action_items gen jpA high_impact themes) else none) := by
  cases useAI <;> exact ⟨rfl, rfl⟩

/-- C3: every analyzed document's impact score is
`score + comment_count + (10 if negative else 0)`; it is always at least
`score + comment_count`, with equality exactly when the label is not
negative. -/
theorem impact_score_formula (cfg : AnalyzerCfg) (processed : List ProcessedPost)
    (a : AnalyzedPost) (ha : a ∈ analyze_posts cfg processed) :
    a.impact_score = a.score + a.num_comments +
      (if a.sentiment.label = str "negative" then 10 else 0) ∧
    a.score + (a.num_comments : Int) ≤ a.impact_score ∧
    (a.impact_score = a.score + a.num_comments ↔ a.sentiment.label ≠ str "negative") := by
  simp only [analyze_posts, List.mem_map] at ha
  obtain ⟨p, -, rfl⟩ := ha
  by_cases h : (analyze_sentiment cfg p.combined_text).label = str "negative" <;> simp [h]

/-- Witness for C3 at a concrete negative post. -/
theorem impact_score_formula_witness :
    (⟨[], str "t", [], [], 2, 3, ⟨str "negative", .lex (-4) 1⟩, 15⟩ : AnalyzedPost) ∈
      analyze_posts cfgLex [ppTerrible] ∧
    ((⟨[], str "t", [], [], 2, 3, ⟨str "negative", .lex (-4) 1⟩, 15⟩ : AnalyzedPost).impact_score =
      2 + 3 + 10) := by
  have he : analyze_posts cfgLex [ppTerrible] =
      [⟨[], str "t", [], [], 2, 3, ⟨str "negative", .lex (-4) 1⟩, 15⟩] := by decide
  have hm : (⟨[], str "t", [], [], 2, 3, ⟨str "negative", .lex (-4) 1⟩, 15⟩ : AnalyzedPost) ∈
      analyze_posts cfgLex [ppTerrible] := by
    rw [he]; exact List.mem_singleton.mpr rfl
  refine ⟨hm, ?_⟩
  have h := (impact_score_formula cfgLex [ppTerrible] _ hm).1
  exact h.trans (by decide)

/-- A scan with a matcher that never fires leaves the string unchanged
(specialised to strings of `'a'`s, on which no source pattern matches). -/
theorem substFuel_eq_of_none (m : Matcher) (repl : Str)
    (hm : ∀ pr (t : Str), (∀ c ∈ t, c = 'a') → m pr t = none) :
    ∀ (fuel : Nat) (prev : Option Char) (s : Str), (∀ c ∈ s, c = 'a') →
      substFuel m repl fuel prev s = s := by
  intro fuel
  induction fuel with
  | zero => intro prev s _; rfl
  | succ n ih =>
    intro prev s hs
    cases s with
    | nil => rfl
    | cons c rest =>
      simp only [substFuel, hm prev (c :: rest) hs]
      exact congrArg (c :: ·) (ih (some c) rest (fun x hx => hs x (List.mem_cons_of_mem _ hx)))

/-- `URL_PATTERN` never matches inside a string of `'a'`s. -/
theorem urlM_allA : ∀ (pr : Option Char) (t : Str), (∀ c ∈ t, c = 'a') → urlM pr t = none := by
  intro pr t ht
  cases t with
  | nil => rfl
  | cons c rest =>
    have hc : c = 'a' := ht c (List.mem_cons_self c rest)
    subst hc; rfl

/-- `HTML_ENTITIES` never matches inside a string of `'a'`s. -/
theorem entM_allA : ∀ (pr : Option Char) (t : Str), (∀ c ∈ t, c = 'a') → entM pr t = none := by
  intro pr t ht
  cases t with
  | nil => rfl
  | cons c rest =>
    have hc : c = 'a' := ht c (List.mem_cons_self c rest)
    subst hc; rfl

/-- The `edit` marker never matches inside a string of `'a'`s. -/
theorem editM_allA : ∀ (pr : Option Char) (t : Str), (∀ c ∈ t, c = 'a') → editM pr t = none := by
  intro pr t ht
  cases t with
  | nil =>
    unfold editM
    rw [show ciPre (str "edit") ([] : Str) = false from rfl, Bool.and_false]
    rfl
  | cons c rest =>
    have hc : c = 'a' := ht c (List.mem_cons_self c rest)
    subst hc
    unfold editM
    rw [show ciPre (str "edit") ('a' :: rest) = false from rfl, Bool.and_false]
    rfl

/-- The `tl;dr` marker never matches inside a string of `'a'`s. -/
theorem tlM_allA : ∀ (pr : Option Char) (t : Str), (∀ c ∈ t, c = 'a') → tlM pr t = none := by
  intro pr t ht
  cases t with
  | nil => unfold tlM; split <;> rfl
  | cons c rest =>
    have hc : c = 'a' := ht c (List.mem_cons_self c rest)
    subst hc
    unfold tlM
    split <;> rfl

/-- The thanks pattern never matches inside a string of `'a'`s. -/
theorem thanksM_allA : ∀ (pr : Option Char) (t : Str), (∀ c ∈ t, c = 'a') →
    thanksM pr t = none := by
  intro pr t ht
  cases t with
  | nil => rfl
  | cons c rest =>
    have hc : c = 'a' := ht c (List.mem_cons_self c rest)
    subst hc; rfl

/-- The disclaimer pattern never matches inside a string of `'a'`s. -/
theorem obligM_allA : ∀ (pr : Option Char) (t : Str), (∀ c ∈ t, c = 'a') →
    obligM pr t = none := by
  intro pr t ht
  cases t with
  | nil => rfl
  | cons c rest =>
    have hc : c = 'a' := ht c (List.mem_cons_self c rest)
    subst hc; rfl

/-- The `source` pattern never matches inside a string of `'a'`s. -/
theorem sourceM_allA : ∀ (pr : Option Char) (t : Str), (∀ c ∈ t, c = 'a') →
    sourceM pr t = none := by
  intro pr t ht
  cases t with
  | nil => unfold sourceM; split <;> rfl
  | cons c rest =>
    have hc : c = 'a' := ht c (List.mem_cons_self c rest)
    subst hc
    unfold sourceM
    split <;> rfl

/-- The removed/deleted pattern never matches inside a string of `'a'`s. -/
theorem removedM_allA : ∀ (pr : Option Char) (t : Str), (∀ c ∈ t, c = 'a') →
    removedM pr t = none := by
  intro pr t ht
  cases t with
  | nil => rfl
  | cons c rest =>
    have hc : c = 'a' := ht c (List.mem_cons_self c rest)
    subst hc; rfl

/-- Whitespace collapse never matches inside a string of `'a'`s. -/
theorem wsM_allA : ∀ (pr : Option Char) (t : Str), (∀ c ∈ t, c = 'a') → wsM pr t = none := by
  intro pr t ht
  cases t with
  | nil => rfl
  | cons c rest =>
    have hc : c = 'a' := ht c (List.mem_cons_self c rest)
    subst hc; rfl

/-- The markdown pass is the identity on strings of `'a'`s. -/
theorem mdMap_allA : ∀ (s : Str), (∀ c ∈ s, c = 'a') →
    s.map (fun c => if isMarkdownChar c then ' ' else c) = s := by
  intro s hs
  induction s with
  | nil => rfl
  | cons c rest ih =>
    have hc : c = 'a' := hs c (List.mem_cons_self c rest)
    subst hc
    simp only [List.map]
    rw [if_neg (by decide), ih (fun x hx => hs x (List.mem_cons_of_mem _ hx))]

/-- The emoji pass is the identity on strings of `'a'`s. -/
theorem emojiFilter_allA : ∀ (s : Str), (∀ c ∈ s, c = 'a') →
    s.filter (fun c => !isEmojiChar c) = s := by
  intro s hs
  induction s with
  | nil => rfl
  | cons c rest ih =>
    have hc : c = 'a' := hs c (List.mem_cons_self c rest)
    subst hc
    simp only [List.filter]
    rw [show (!isEmojiChar 'a') = true from rfl, ih (fun x hx => hs x (List.mem_cons_of_mem _ hx))]

/-- `dropWhile pyIsSpace` is the identity on strings of `'a'`s. -/
theorem dropWhileSpace_allA : ∀ (s : Str), (∀ c ∈ s, c = 'a') →
    s.dropWhile pyIsSpace = s := by
  intro s hs
  cases s with
  | nil => rfl
  | cons c rest =>
    have hc : c = 'a' := hs c (List.mem_cons_self c rest)
    subst hc; rfl

/-- `pyStrip` is the identity on strings of `'a'`s. -/
theorem pyStrip_allA : ∀ (s : Str), (∀ c ∈ s, c = 'a') → pyStrip s = s := by
  intro s hs
  unfold pyStrip
  rw [dropWhileSpace_allA s hs,
    dropWhileSpace_allA s.reverse (fun c hc => hs c (List.mem_reverse.mp hc)),
    List.reverse_reverse]

/-- `clean_text` is the identity on strings of `'a'`s: no pass fires. -/
theorem clean_text_allA (s : Str) (hs : ∀ c ∈ s, c = 'a') : clean_text s = s := by
  unfold clean_text
  split
  · next h => rw [h]
  · have hurl : pySub urlM [] s = s := substFuel_eq_of_none _ _ urlM_allA _ _ _ hs
    have hmd : s.map (fun c => if isMarkdownChar c then ' ' else c) = s := mdMap_allA s hs
    have hent : pySub entM [' '] s = s := substFuel_eq_of_none _ _ entM_allA _ _ _ hs
    have hemo : s.filter (fun c => !isEmojiChar c) = s := emojiFilter_allA s hs
    have hedit : pySub editM [] s = s := substFuel_eq_of_none _ _ editM_allA _ _ _ hs
    have htl : pySub tlM [] s = s := substFuel_eq_of_none _ _ tlM_allA _ _ _ hs
    have hthanks : pySub thanksM [] s = s := substFuel_eq_of_none _ _ thanksM_allA _ _ _ hs
    have hoblig : pySub obligM [] s = s := substFuel_eq_of_none _ _ obligM_allA _ _ _ hs
    have hsource : pySub sourceM [] s = s := substFuel_eq_of_none _ _ sourceM_allA _ _ _ hs
    have hrem : pySub removedM [] s = s := substFuel_eq_of_none _ _ removedM_allA _ _ _ hs
    have hws : pySub wsM [' '] s = s := substFuel_eq_of_none _ _ wsM_allA _ _ _ hs
    simp only [hurl, hmd, hent, hemo, hedit, htl, hthanks, hoblig, hsource, hrem, hws,
      pyStrip_allA s hs]

set_option maxRecDepth 4000 in
/-- C6 counterexample: with three comments whose cleaned bodies are 666
characters each, the loop keeps all three (`0+666`, `666+666`, `1332+666`
all < 2000), but the `" | "`-joined `cleaned_comments` string has length
2004 > 2000 — the separators are not counted against the cap. -/
theorem comment_cap_cex :
    2000 < ((process_post ppCap).cleaned_comments).length ∧
    ((process_post ppCap).cleaned_comments).length = 2004 := by
  have hca : clean_text aComment = aComment :=
    clean_text_allA _ (fun c hc => List.eq_of_mem_replicate hc)
  have hlen : aComment.length = 666 := by
    rw [show aComment = List.replicate 666 'a' from rfl, List.length_replicate]
  have hne : aComment ≠ [] := by
    intro h
    rw [h] at hlen
    simp at hlen
  have step : ∀ (tot : Nat) (cs : List Str), tot + 666 < 2000 →
      commentsAux tot (aComment :: cs) = aComment :: commentsAux (tot + 666) cs := by
    intro tot cs h
    simp only [commentsAux, hca, hlen]
    split
    · rfl
    · next hcond => exact absurd ⟨hne, h⟩ hcond
  have h1 : commentsAux 0 [aComment, aComment, aComment] = [aComment, aComment, aComment] := by
    rw [step 0 _ (by norm_num), step 666 _ (by norm_num), step 1332 _ (by norm_num)]
    rfl
  have hpp : (process_post ppCap).cleaned_comments =
      joinSep (str " | ") (commentsAux 0 [aComment, aComment, aComment]) := rfl
  rw [hpp, h1]
  have hj : (joinSep (str " | ") [aComment, aComment, aComment]).length = 2004 := by
    simp only [joinSep, List.length_append, hlen, show (str " | ").length = 3 from rfl]
  rw [hj]
  exact ⟨by norm_num, rfl⟩

/-- The kept cleaned comments form a sublist of all cleaned comments: a
comment is dropped whole or kept whole, never trimmed. -/
theorem commentsAux_sublist : ∀ (cs : List Str) (tot : Nat),
    List.Sublist (commentsAux tot cs) (cs.map clean_text) := by
  intro cs
  induction cs with
  | nil => intro tot; simp [commentsAux]
  | cons c cs ih =>
    intro tot
    simp only [commentsAux, List.map]
    split
    · exact (ih _).cons₂ _
    · exact (ih _).cons _

/-- The running total of kept cleaned-comment lengths stays below 2000. -/
theorem commentsAux_sum : ∀ (cs : List Str) (tot : Nat), tot < 2000 →
    tot + ((commentsAux tot cs).map List.length).sum < 2000 := by
  intro cs
  induction cs with
  | nil => intro tot h; simpa using h
  | cons c cs ih =>
    intro tot h
    simp only [commentsAux]
    split
    · next hcond =>
      have := ih (tot + (clean_text c).length) hcond.2
      simp only [List.map, List.sum_cons]
      omega
    · exact ih tot h

/-- C6 (amended): the loop keeps the sum of kept cleaned-comment lengths
strictly below the 2000 cap and never trims a comment (the kept texts are a
sublist of the cleaned comments: greedy first-fit), but `cleaned_comments`
is the `" | "`-join of the kept texts, whose three-per-separator overhead is
not counted: the joined string itself can exceed 2000 (see the
counterexample). -/
theorem comment_cap_amended (post : RedditPost) :
    List.Sublist (commentsAux 0 post.comments) (post.comments.map clean_text) ∧
    ((commentsAux 0 post.comments).map List.length).sum < 2000 ∧
    (process_post post).cleaned_comments = joinSep (str " | ") (commentsAux 0 post.comments) :=
  ⟨commentsAux_sublist _ _,
   by have := commentsAux_sum post.comments 0 (by norm_num); simpa using this,
   rfl⟩

/-- Characters of a substitution result come from the input or the
replacement string. -/
theorem substFuel_mem (m : Matcher) (repl : Str) :
    ∀ (fuel : Nat) (prev : Option Char) (s : Str) (c : Char),
      c ∈ substFuel m repl fuel prev s → c ∈ s ∨ c ∈ repl := by
  intro fuel
  induction fuel with
  | zero => intro prev s c hc; exact .inl hc
  | succ n ih =>
    intro prev s c hc
    cases s with
    | nil => simp [substFuel] at hc
    | cons a rest =>
      simp only [substFuel] at hc
      split at hc
      · rcases List.mem_append.mp hc with h | h
        · exact .inr h
        · rcases ih _ _ _ h with h2 | h2
          · exact .inl (List.mem_cons_of_mem _ (List.drop_subset _ _ h2))
          · exact .inr h2
      · rcases List.mem_cons.mp hc with rfl | h
        · exact .inl (List.mem_cons_self _ _)
        · rcases ih _ _ _ h with h2 | h2
          · exact .inl (List.mem_cons_of_mem _ h2)
          · exact .inr h2

/-- Characters survive `pyStrip` only if present in the input. -/
theorem pyStrip_subset {c : Char} {s : Str} (hc : c ∈ pyStrip s) : c ∈ s := by
  unfold pyStrip at hc
  rw [List.mem_reverse] at hc
  have h1 := (List.dropWhile_sublist pyIsSpace).subset hc
  rw [List.mem_reverse] at h1
  exact (List.dropWhile_sublist pyIsSpace).subset h1

/-- Characters of `pySub m [] t` come from `t`. -/
theorem pySub_empty_subset (m : Matcher) {c : Char} {t : Str}
    (hc : c ∈ pySub m [] t) : c ∈ t := by
  rcases substFuel_mem m [] _ _ _ _ hc with h | h
  · exact h
  · simp at h

/-- After the emoji pass, none of the remaining passes can reintroduce an
emoji code point: the noise passes only delete and the whitespace pass only
inserts spaces. -/
theorem no_emoji_after (t : Str) :
    ∀ c ∈ pyStrip (pySub wsM [' '] (pySub removedM [] (pySub sourceM [] (pySub obligM []
      (pySub thanksM [] (pySub tlM [] (pySub editM []
        (t.filter (fun c => !isEmojiChar c))))))))), isEmojiChar c = false := by
  intro c hc
  have h1 := pyStrip_subset hc
  rcases substFuel_mem wsM [' '] _ _ _ _ h1 with h2 | h2
  · have h3 := pySub_empty_subset removedM h2
    have h4 := pySub_empty_subset sourceM h3
    have h5 := pySub_empty_subset obligM h4
    have h6 := pySub_empty_subset thanksM h5
    have h7 := pySub_empty_subset tlM h6
    have h8 := pySub_empty_subset editM h7
    have h9 := List.mem_filter.mp h8
    simpa using h9.2
  · have : c = ' ' := by simpa using h2
    subst this
    decide

/-- `clean_text` output contains no emoji code points. -/
theorem clean_text_no_emoji (s : Str) : ∀ c ∈ clean_text s, isEmojiChar c = false := by
  rcases eq_or_ne s [] with rfl | hne
  · intro c hc
    simp [clean_text] at hc
  · have he : clean_text s =
        pyStrip (pySub wsM [' '] (pySub removedM [] (pySub sourceM [] (pySub obligM []
          (pySub thanksM [] (pySub tlM [] (pySub editM []
            ((pySub entM [' ']
              ((pySub urlM [] s).map (fun c => if isMarkdownChar c then ' ' else c))).filter
                (fun c => !isEmojiChar c))))))))) := by
      unfold clean_text
      rw [if_neg hne]
    rw [he]
    exact no_emoji_after _

/-- C4 (amended): after cleaning, `cleaned_title` and `cleaned_body` contain
no emoji code points, the passes running in the fixed source order.  The
original claim's "no URL substrings, no raw HTML entities" parts are false:
the emoji (and noise) passes delete characters and can join the surrounding
fragments into new URL or entity occurrences (see the counterexample). -/
theorem cleaned_no_emoji (post : RedditPost) (c : Char) :
    (c ∈ (process_post post).cleaned_title → isEmojiChar c = false) ∧
    (c ∈ (process_post post).cleaned_body → isEmojiChar c = false) := by
  constructor
  · intro hc
    exact clean_text_no_emoji post.title c hc
  · intro hc
    have hb : (process_post post).cleaned_body =
        (if 1000 < (clean_text post.selftext).length then
          (clean_text post.selftext).take 1000 ++ str "..."
         else clean_text post.selftext) := rfl
    rw [hb] at hc
    split at hc
    · rcases List.mem_append.mp hc with h | h
      · exact clean_text_no_emoji post.selftext c (List.take_subset _ _ h)
      · revert h
        have : ∀ x ∈ str "...", isEmojiChar x = false := by decide
        exact this c
    · exact clean_text_no_emoji post.selftext c hc

/-- Witness for C4 at a concrete post and character. -/
theorem cleaned_no_emoji_witness :
    'h' ∈ (process_post ppHello).cleaned_title ∧ isEmojiChar 'h' = false :=
  ⟨by decide, (cleaned_no_emoji ppHello 'h').1 (by decide)⟩

/-- C4 counterexample: the title `"h😀ttp://x"` contains no URL before
cleaning, but the emoji pass deletes the emoji between `h` and `ttp://x`,
and the cleaned title is exactly `"http://x"` — a URL substring. -/
theorem cleaned_no_emoji_cex :
    containsUrl ((process_post ppUrl).cleaned_title) = true ∧
    (process_post ppUrl).cleaned_title = str "http://x" ∧
    containsUrl ppUrl.title = false := by
  refine ⟨?_, by decide, by decide⟩
  decide

/-- Every lexicon weight has absolute value at most 5. -/
theorem lexLookup_bound (w : Str) (v : Int) (h : lexLookup w = some v) : |v| ≤ 5 := by
  unfold lexLookup at h
  rcases Option.map_eq_some'.mp h with ⟨e, he, rfl⟩
  have hm := List.mem_of_find?_eq_some he
  have : ∀ e ∈ SENTIMENT_LEXICON, |e.2| ≤ 5 := by decide
  exact this e hm

/-- The lexicon total is bounded by 5 per matched token. -/
theorem lexTotals_bound (t : Str) : |(lexTotals t).1| ≤ 5 * ((lexTotals t).2 : Int) := by
  unfold lexTotals
  generalize lexTokens t = ws
  suffices h : ∀ (ws : List Str) (s : Int) (n : Nat), |s| ≤ 5 * (n : Int) →
      |(ws.foldl (fun acc w => match lexLookup w with
        | some v => (acc.1 + v, acc.2 + 1)
        | none => acc) (s, n)).1| ≤
      5 * ((ws.foldl (fun acc w => match lexLookup w with
        | some v => (acc.1 + v, acc.2 + 1)
        | none => acc) (s, n)).2 : Int) by
    exact h ws 0 0 (by norm_num)
  intro ws
  induction ws with
  | nil => intro s n h; simpa using h
  | cons w ws ih =>
    intro s n h
    simp only [List.foldl]
    cases hv : lexLookup w with
    | none => simp only [hv]; exact ih s n h
    | some v =>
      simp only [hv]
      apply ih
      have h1 := abs_add s v
      have h2 := lexLookup_bound w v hv
      push_cast
      linarith

/-- The real-valued lexicon confidence `|total| / (5*sqrt wc)` is nonnegative
and at most `sqrt wc`. -/
theorem lex_conf_bound (total : Int) (wc : Nat) (hb : |total| ≤ 5 * (wc : Int)) :
    0 ≤ |(total : ℝ)| / (5 * Real.sqrt wc) ∧
    |(total : ℝ)| / (5 * Real.sqrt wc) ≤ Real.sqrt wc := by
  refine ⟨by positivity, ?_⟩
  rcases Nat.eq_zero_or_pos wc with h0 | hpos
  · subst h0
    have : total = 0 := by
      have : |total| ≤ 0 := by simpa using hb
      exact abs_eq_zero.mp (le_antisymm this (abs_nonneg _))
    subst this
    simp
  · have hw : (0 : ℝ) < wc := by exact_mod_cast hpos
    have hs : 0 < Real.sqrt wc := Real.sqrt_pos.mpr hw
    rw [div_le_iff₀ (by positivity)]
    have hsq : Real.sqrt wc * (5 * Real.sqrt wc) = 5 * wc := by
      have := Real.mul_self_sqrt hw.le
      nlinarith [this]
    rw [hsq]
    have : |(total : ℝ)| = ((|total| : Int) : ℝ) := by
      rw [Int.cast_abs]
    rw [this]
    exact_mod_cast hb

/-- C7 (amended): confidence is always nonnegative; under the lexicon
strategy it equals `|total| / (5*sqrt wc)` and is bounded by `sqrt wc` (so it
can exceed 1 — see the counterexample); under the ensemble strategy, given
analyzer outputs within `[-1, 1]`, it lies in `[0, 1]`. -/
theorem confidence_bounds (cfg : AnalyzerCfg) (t : Str)
    (hv : ∀ f, cfg.vader = some f → |f t| ≤ 1)
    (htb : ∀ f, cfg.textblob = some f → |f t| ≤ 1) :
    (∀ s wc, (analyze_sentiment cfg t).raw = .lex s wc →
      0 ≤ |(s : ℝ)| / (5 * Real.sqrt wc) ∧ |(s : ℝ)| / (5 * Real.sqrt wc) ≤ Real.sqrt wc) ∧
    (∀ q, (analyze_sentiment cfg t).raw = .ml q → 0 ≤ |q| ∧ |q| ≤ 1) := by
  have hlex : ∀ s wc, (analyze_sentiment_lexicon t).raw = .lex s wc →
      0 ≤ |(s : ℝ)| / (5 * Real.sqrt wc) ∧ |(s : ℝ)| / (5 * Real.sqrt wc) ≤ Real.sqrt wc := by
    intro s wc hr
    have : s = (lexTotals t).1 ∧ wc = (lexTotals t).2 := by
      unfold analyze_sentiment_lexicon at hr
      injection hr with h1 h2
      exact ⟨h1.symm, h2.symm⟩
    rcases this with ⟨rfl, rfl⟩
    exact lex_conf_bound _ _ (lexTotals_bound t)
  have hlexml : ∀ q, (analyze_sentiment_lexicon t).raw = .ml q → 0 ≤ |q| ∧ |q| ≤ 1 := by
    intro q hr
    simp [analyze_sentiment_lexicon] at hr
  unfold analyze_sentiment
  split
  · unfold analyze_sentiment_ml
    cases hvd : cfg.vader with
    | none => exact ⟨hlex, hlexml⟩
    | some v =>
      cases htbs : cfg.textblob with
      | none =>
        constructor
        · intro s wc hr
          simp only at hr
          exact absurd hr (by simp)
        · intro q hr
          simp only at hr
          injection hr with h1
          subst h1
          exact ⟨abs_nonneg _, hv v hvd⟩
      | some tb =>
        constructor
        · intro s wc hr
          simp only at hr
          exact absurd hr (by simp)
        · intro q hr
          simp only at hr
          injection hr with h1
          subst h1
          have h1 := hv v hvd
          have h2 := htb tb htbs
          refine ⟨abs_nonneg _, ?_⟩
          have ha := abs_add (v t * (6/10)) (tb t * (4/10))
          rw [abs_mul, abs_mul] at ha
          have e1 : |(6/10 : ℚ)| = 6/10 := by norm_num
          have e2 : |(4/10 : ℚ)| = 4/10 := by norm_num

          rw [e1, e2] at ha
          nlinarith [abs_nonneg (v t), abs_nonneg (tb t)]
  · exact ⟨hlex, hlexml⟩

/-- Witness for C7's amended bounds at an ensemble configuration. -/
theorem confidence_bounds_witness :
    (∀ f, cfgMl.vader = some f → |f ([] : Str)| ≤ 1) ∧
    (∀ f, cfgMl.textblob = some f → |f ([] : Str)| ≤ 1) ∧
    (∀ q, (analyze_sentiment cfgMl []).raw = .ml q → 0 ≤ |q| ∧ |q| ≤ 1) := by
  have h1 : ∀ f, cfgMl.vader = some f → |f ([] : Str)| ≤ 1 := by
    intro f hf
    have : (fun _ : Str => (1/2 : ℚ)) = f := by
      have := hf
      simp only [cfgMl] at this
      exact Option.some.inj this
    rw [← this]
    rw [show |(1/2 : ℚ)| = 1/2 from abs_of_pos (by norm_num)]
    norm_num
  have h2 : ∀ f, cfgMl.textblob = some f → |f ([] : Str)| ≤ 1 := by
    intro f hf
    simp [cfgMl] at hf
  exact ⟨h1, h2, (confidence_bounds cfgMl [] h1 h2).2⟩

/-- C7 counterexample: on `"amazing amazing amazing amazing"` the lexicon
scorer matches four tokens of weight 5, so `total = 20`, `wc = 4`,
`normalized = 20 / sqrt 4 = 10`, and the confidence `|normalized| / 5 = 2`
exceeds 1 — the claim asserts confidence ∈ [0, 1]. -/
theorem confidence_cex :
    (analyze_sentiment_lexicon (str "amazing amazing amazing amazing")).raw = .lex 20 4 ∧
    (1 : ℝ) < |((20 : Int) : ℝ)| / (5 * Real.sqrt ((4 : Nat) : ℝ)) := by
  constructor
  · decide
  · have h4 : ((4 : Nat) : ℝ) = 2 ^ 2 := by norm_num
    rw [h4, Real.sqrt_sq (by norm_num : (0 : ℝ) ≤ 2)]
    norm_num

/-- Round-half-to-even is within 1/2 of its argument. -/
theorem rhe_close (q : ℚ) : |(rhe q : ℚ) - q| ≤ 1/2 := by
  simp only [rhe]
  have h1 : (⌊q⌋ : ℚ) ≤ q := Int.floor_le q
  have h2 : q < ⌊q⌋ + 1 := Int.lt_floor_add_one q
  split_ifs with ha hb hc <;> rw [abs_le] <;> constructor <;> push_cast <;> linarith

/-- The sentiment label is always one of the three expected strings. -/
theorem label_mem (cfg : AnalyzerCfg) (t : Str) :
    (analyze_sentiment cfg t).label = str "positive" ∨
    (analyze_sentiment cfg t).label = str "neutral" ∨
    (analyze_sentiment cfg t).label = str "negative" := by
  have hlex : ∀ u : Str, (analyze_sentiment_lexicon u).label = str "positive" ∨
      (analyze_sentiment_lexicon u).label = str "neutral" ∨
      (analyze_sentiment_lexicon u).label = str "negative" := by
    intro u
    unfold analyze_sentiment_lexicon
    dsimp only
    split_ifs <;> simp
  unfold analyze_sentiment
  split
  · unfold analyze_sentiment_ml
    cases hvd : cfg.vader with
    | none => exact hlex t
    | some v =>
      cases htb : cfg.textblob with
      | none => dsimp only; split_ifs <;> simp
      | some tb => dsimp only; split_ifs <;> simp
  · exact hlex t

/-- With every label among the three strings, the three label counts sum to
the batch size. -/
theorem countLabel_sum (l : List AnalyzedPost)
    (h : ∀ p ∈ l, p.sentiment.label = str "positive" ∨ p.sentiment.label = str "neutral" ∨
      p.sentiment.label = str "negative") :
    countLabel (str "positive") l + countLabel (str "neutral") l +
      countLabel (str "negative") l = l.length := by
  induction l with
  | nil => rfl
  | cons a l ih =>
    have ha := h a (List.mem_cons_self _ _)
    have hrest := ih (fun p hp => h p (List.mem_cons_of_mem _ hp))
    have epp : (str "positive" == str "positive") = true := by decide
    have epn : (str "positive" == str "neutral") = false := by decide
    have epg : (str "positive" == str "negative") = false := by decide
    have enp : (str "neutral" == str "positive") = false := by decide
    have enn : (str "neutral" == str "neutral") = true := by decide
    have eng : (str "neutral" == str "negative") = false := by decide
    have egp : (str "negative" == str "positive") = false := by decide
    have egn : (str "negative" == str "neutral") = false := by decide
    have egg : (str "negative" == str "negative") = true := by decide
    rcases ha with ha | ha | ha <;>
      simp only [countLabel, List.countP_cons, List.length_cons, ha, epp, epn, epg, enp, enn,
        eng, egp, egn, egg, eq_self_iff_true, Bool.false_eq_true, if_true, if_false] at hrest
        ⊢ <;>
      omega

/-- C10: for every non-empty batch, the three rounded sentiment percentages
sum to 100 within 1/10; for the empty batch all three are zero. -/
theorem dist_sum_bound (cfg : AnalyzerCfg) (processed : List ProcessedPost)
    (hne : processed ≠ []) :
    |((calculate_sentiment_distribution (analyze_posts cfg processed)).positive +
      (calculate_sentiment_distribution (analyze_posts cfg processed)).neutral +
      (calculate_sentiment_distribution (analyze_posts cfg processed)).negative) - 100| ≤
      1/10 ∧
    calculate_sentiment_distribution (analyze_posts cfg []) = ⟨0, 0, 0⟩ := by
  refine ⟨?_, rfl⟩
  set l := analyze_posts cfg processed with hldef
  have hl : l ≠ [] := by
    rw [hldef]
    unfold analyze_posts
    simpa using hne
  have hlen : 0 < l.length := List.length_pos.mpr hl
  have hT : (0 : ℚ) < (l.length : ℚ) := by exact_mod_cast hlen
  have hlab : ∀ p ∈ l, p.sentiment.label = str "positive" ∨
      p.sentiment.label = str "neutral" ∨ p.sentiment.label = str "negative" := by
    intro p hp
    rw [hldef] at hp
    unfold analyze_posts at hp
    rcases List.mem_map.mp hp with ⟨q, -, rfl⟩
    exact label_mem cfg q.combined_text
  have hcnt := countLabel_sum l hlab
  have hempAll : ∀ m : List AnalyzedPost, m ≠ [] → m.isEmpty = false := by
    intro m hm
    cases m with
    | nil => exact absurd rfl hm
    | cons a m2 => rfl
  have hemp : l.isEmpty = false := hempAll l hl
  unfold calculate_sentiment_distribution
  rw [hemp]
  simp only [Bool.false_eq_true, if_false]
  set T : ℚ := (l.length : ℚ) with hTdef
  set x1 : ℚ := (countLabel (str "positive") l : ℚ) / T * 100 * 10 with hx1
  set x2 : ℚ := (countLabel (str "neutral") l : ℚ) / T * 100 * 10 with hx2
  set x3 : ℚ := (countLabel (str "negative") l : ℚ) / T * 100 * 10 with hx3
  have hsum : x1 + x2 + x3 = 1000 := by
    rw [hx1, hx2, hx3]
    have : ((countLabel (str "positive") l : ℚ) + (countLabel (str "neutral") l : ℚ) +
        (countLabel (str "negative") l : ℚ)) = T := by
      rw [hTdef]
      exact_mod_cast hcnt
    field_simp
    linarith
  have b1 := rhe_close x1
  have b2 := rhe_close x2
  have b3 := rhe_close x3
  set z : Int := rhe x1 + rhe x2 + rhe x3 - 1000 with hzdef
  have hzq : |(z : ℚ)| ≤ 3/2 := by
    have e : (z : ℚ) = ((rhe x1 : ℚ) - x1) + ((rhe x2 : ℚ) - x2) + ((rhe x3 : ℚ) - x3) := by
      rw [hzdef]
      push_cast
      linarith
    rw [e]
    have t1 := abs_add ((rhe x1 : ℚ) - x1) ((rhe x2 : ℚ) - x2)
    have t2 := abs_add (((rhe x1 : ℚ) - x1) + ((rhe x2 : ℚ) - x2)) ((rhe x3 : ℚ) - x3)
    linarith
  have hz1 : |z| ≤ 1 := by
    rw [abs_le] at hzq ⊢
    constructor
    · have : (-2 : ℚ) < (z : ℚ) := by linarith
      have h2 : (-2 : Int) < z := by exact_mod_cast this
      omega
    · have : (z : ℚ) < 2 := by linarith
      have h2 : z < 2 := by exact_mod_cast this
      omega
  have hgoal : (rhe x1 : ℚ) / 10 + (rhe x2 : ℚ) / 10 + (rhe x3 : ℚ) / 10 - 100 =
      (z : ℚ) / 10 := by
    rw [hzdef]
    push_cast
    ring
  rw [hgoal]
  have : |(z : ℚ)| ≤ 1 := by exact_mod_cast hz1
  rw [abs_div]
  rw [show |(10 : ℚ)| = 10 from by norm_num]
  linarith

/-- Witness for C10 at a concrete one-post batch. -/
theorem dist_sum_bound_witness :
    ([ppTerrible] : List ProcessedPost) ≠ [] ∧
    |((calculate_sentiment_distribution (analyze_posts cfgLex [ppTerrible])).positive +
      (calculate_sentiment_distribution (analyze_posts cfgLex [ppTerrible])).neutral +
      (calculate_sentiment_distribution (analyze_posts cfgLex [ppTerrible])).negative) - 100| ≤
      1/10 :=
  ⟨by simp, (dist_sum_bound cfgLex [ppTerrible] (by simp)).1⟩

/-- Elements of a tagged list: tag at least the start, payload from the list. -/
theorem mem_tagFrom {α : Type} :
    ∀ (l : List α) (i : Nat) (p : Nat × α), p ∈ tagFrom i l → i ≤ p.1 ∧ p.2 ∈ l := by
  intro l
  induction l with
  | nil => intro i p hp; simp [tagFrom] at hp
  | cons x xs ih =>
    intro i p hp
    rcases List.mem_cons.mp hp with rfl | hp2
    · exact ⟨le_refl _, List.mem_cons_self _ _⟩
    · rcases ih (i + 1) p hp2 with ⟨h1, h2⟩
      exact ⟨by omega, List.mem_cons_of_mem _ h2⟩

/-- Untagging a tagged list recovers the list. -/
theorem map_snd_tagFrom {α : Type} : ∀ (l : List α) (i : Nat),
    (tagFrom i l).map Prod.snd = l := by
  intro l
  induction l with
  | nil => intro i; rfl
  | cons x xs ih => intro i; simp [tagFrom, ih (i + 1)]

/-- Tags are strictly increasing along a tagged list. -/
theorem tagFrom_fst_lt {α : Type} : ∀ (l : List α) (i : Nat),
    (tagFrom i l).Pairwise (fun x y => x.1 < y.1) := by
  intro l
  induction l with
  | nil => intro i; simp [tagFrom]
  | cons x xs ih =>
    intro i
    rw [tagFrom, List.pairwise_cons]
    exact ⟨fun p hp => by have := (mem_tagFrom xs (i + 1) p hp).1; omega, ih (i + 1)⟩

/-- Ordered insertion of a fresh-tagged element commutes with untagging:
the tagged comparison agrees with the untagged one because the new tag is
smaller than every tag already present. -/
theorem map_snd_orderedInsert {α : Type} (key : α → Int) (i : Nat) (x : α) :
    ∀ (tl : List (Nat × α)), (∀ p ∈ tl, i < p.1) →
      (List.orderedInsert (tagRel key) (i, x) tl).map Prod.snd =
      List.orderedInsert (keyRel key) x (tl.map Prod.snd) := by
  intro tl
  induction tl with
  | nil => intro _; rfl
  | cons p tl ih =>
    intro h
    have hip : i < p.1 := h p (List.mem_cons_self _ _)
    by_cases hc : key p.2 ≤ key x
    · have hcond : tagRel key (i, x) p := by
        unfold tagRel
        rcases lt_or_eq_of_le hc with h1 | h1
        · exact .inl h1
        · exact .inr ⟨h1.symm, by omega⟩
      simp only [List.orderedInsert, if_pos hcond, if_pos (show keyRel key x p.2 from hc)]
      rfl
    · have hcond : ¬tagRel key (i, x) p := by
        unfold tagRel
        dsimp only
        push_neg
        constructor
        · omega
        · intro he
          omega
      simp only [List.orderedInsert, if_neg hcond, if_neg (show ¬keyRel key x p.2 from hc)]
      simp only [List.map]
      rw [ih (fun q hq => h q (List.mem_cons_of_mem _ hq))]

/-- Sorting the tagged list and untagging gives the untagged sort. -/
theorem map_snd_sortTag {α : Type} (key : α → Int) :
    ∀ (l : List α) (i : Nat),
      (List.insertionSort (tagRel key) (tagFrom i l)).map Prod.snd =
      List.insertionSort (keyRel key) l := by
  intro l
  induction l with
  | nil => intro i; rfl
  | cons x xs ih =>
    intro i
    simp only [tagFrom, List.insertionSort]
    rw [map_snd_orderedInsert key i x _ ?hmem, ih (i + 1)]
    case hmem =>
      intro p hp
      rw [List.mem_insertionSort] at hp
      have := (mem_tagFrom xs (i + 1) p hp).1
      omega

/-- The output of `pySortDesc` is the untagging of a permutation of the
position-tagged input that is sorted by the strict lexicographic order
(key descending, original position ascending on ties) — i.e. `pySortDesc`
is the stable descending sort. -/
theorem pySortDesc_stable {α : Type} (key : α → Int) (l : List α) :
    ∃ s : List (Nat × α),
      (tagFrom 0 l).Perm s ∧
      s.Pairwise (fun x y => key y.2 < key x.2 ∨ (key x.2 = key y.2 ∧ x.1 < y.1)) ∧
      pySortDesc key l = s.map Prod.snd := by
  haveI : IsTotal (Nat × α) (tagRel key) := by
    constructor
    intro a b
    unfold tagRel
    rcases lt_trichotomy (key a.2) (key b.2) with h | h | h
    · exact .inr (.inl h)
    · rcases Nat.le_total a.1 b.1 with h2 | h2
      · exact .inl (.inr ⟨h, h2⟩)
      · exact .inr (.inr ⟨h.symm, h2⟩)
    · exact .inl (.inl h)
  haveI : IsTrans (Nat × α) (tagRel key) := by
    constructor
    intro a b c hab hbc
    unfold tagRel at *
    rcases hab with h1 | ⟨h1, h1i⟩ <;> rcases hbc with h2 | ⟨h2, h2i⟩
    · exact .inl (h2.trans h1)
    · exact .inl (h2 ▸ h1)
    · exact .inl (h1 ▸ h2)
    · exact .inr ⟨h1.trans h2, h1i.trans h2i⟩
  refine ⟨List.insertionSort (tagRel key) (tagFrom 0 l),
    (List.perm_insertionSort _ _).symm, ?_, (map_snd_sortTag key l 0).symm⟩
  have hpw : (List.insertionSort (tagRel key) (tagFrom 0 l)).Pairwise (tagRel key) :=
    List.sorted_insertionSort _ _
  have hfst : ((List.insertionSort (tagRel key) (tagFrom 0 l)).map Prod.fst).Nodup := by
    have h1 : ((tagFrom 0 l).map Prod.fst).Nodup := by
      have := tagFrom_fst_lt l 0
      exact List.pairwise_map.mpr (this.imp (fun h => Nat.ne_of_lt h))
    have hperm : ((tagFrom 0 l).map Prod.fst).Perm
        ((List.insertionSort (tagRel key) (tagFrom 0 l)).map Prod.fst) :=
      ((List.perm_insertionSort _ _).symm).map _
    exact hperm.nodup_iff.mp h1
  have hne : (List.insertionSort (tagRel key) (tagFrom 0 l)).Pairwise
      (fun x y => x.1 ≠ y.1) := List.pairwise_map.mp hfst
  refine (hpw.and hne).imp ?_
  rintro a b ⟨hab, hne2⟩
  unfold tagRel at hab
  rcases hab with h | ⟨h1, h2⟩
  · exact .inl h
  · exact .inr ⟨h1, lt_of_le_of_ne h2 hne2⟩

/-- C8: `get_high_impact_issues` returns the first `top_n` entries of the
stable descending sort by impact score: there is a lex-sorted (impact
descending, original position ascending on ties) permutation `s` of the
position-tagged input whose untagged prefix of length `top_n`, mapped to
issue dicts, is exactly the result. -/
theorem rank_top_n (posts : List AnalyzedPost) (n : Nat) :
    ∃ s : List (Nat × AnalyzedPost),
      (tagFrom 0 posts).Perm s ∧
      s.Pairwise (fun x y => y.2.impact_score < x.2.impact_score ∨
        (x.2.impact_score = y.2.impact_score ∧ x.1 < y.1)) ∧
      get_high_impact_issues posts n = ((s.map Prod.snd).take n).map issueOf := by
  obtain ⟨s, h1, h2, h3⟩ := pySortDesc_stable (fun p : AnalyzedPost => p.impact_score) posts
  refine ⟨s, h1, h2, ?_⟩
  rw [get_high_impact_issues, h3]

/-- `mkTheme` reports exactly the accumulated count. -/
theorem mkTheme_count (nm : Str) (a : ThemeAcc) : (mkTheme nm a).count = a.count := by
  simp only [mkTheme]
  split_ifs <;> rfl

/-- `mkTheme` keeps the taxonomy name. -/
theorem mkTheme_name (nm : Str) (a : ThemeAcc) : (mkTheme nm a).name = nm := by
  simp only [mkTheme]
  split_ifs <;> rfl

/-- `zipWith` of a list against its own image collapses to a single map. -/
theorem zipWith_map_self {α β γ : Type} (f : α → β → γ) (g : α → β) :
    ∀ l : List α, List.zipWith f l (l.map g) = l.map (fun e => f e (g e)) := by
  intro l
  induction l with
  | nil => rfl
  | cons a l ih => simp only [List.map, List.zipWith, ih]

/-- The per-post accumulator fold decomposes into one independent fold per
taxonomy entry. -/
theorem accsFold_aux :
    ∀ (posts : List AnalyzedPost) (g : Str × List Str → ThemeAcc),
      posts.foldl (fun accs p => List.zipWith (fun e a => updAcc p e.2 a) THEME_KEYWORDS accs)
        (THEME_KEYWORDS.map g) =
      THEME_KEYWORDS.map (fun e => posts.foldl (fun a p => updAcc p e.2 a) (g e)) := by
  intro posts
  induction posts with
  | nil => intro g; rfl
  | cons p posts ih =>
    intro g
    simp only [List.foldl]
    rw [zipWith_map_self]
    exact ih (fun e => updAcc p e.2 (g e))

/-- Closed form of `accsFor`. -/
theorem accsFor_closed (posts : List AnalyzedPost) :
    accsFor posts = THEME_KEYWORDS.map
      (fun e => posts.foldl (fun a p => updAcc p e.2 a) ⟨0, 0, 0, 0, []⟩) :=
  accsFold_aux posts (fun _ => ⟨0, 0, 0, 0, []⟩)

/-- The sentiment tally leaves the count unchanged. -/
theorem tallyAdd_count (lab : Str) (b : ThemeAcc) : (tallyAdd lab b).count = b.count := by
  unfold tallyAdd
  split_ifs <;> rfl

/-- One accumulator step adds exactly the per-document keyword-hit count. -/
theorem updAcc_count (p : AnalyzedPost) (kws : List Str) (a : ThemeAcc) :
    (updAcc p kws a).count = a.count + kwMatches kws (themeText p) := by
  unfold updAcc
  dsimp only
  split
  · split <;> simp [tallyAdd_count]
  · next h => omega

/-- The accumulated count is the sum of per-document keyword-hit counts. -/
theorem foldl_updAcc_count (kws : List Str) :
    ∀ (posts : List AnalyzedPost) (a : ThemeAcc),
      (posts.foldl (fun a p => updAcc p kws a) a).count =
      a.count + (posts.map (fun p => kwMatches kws (themeText p))).sum := by
  intro posts
  induction posts with
  | nil => intro a; simp
  | cons p posts ih =>
    intro a
    simp only [List.foldl, List.map, List.sum_cons]
    rw [ih, updAcc_count]
    omega

/-- Members of `l.zip (l.map g)` are pairs `(e, g e)` with `e ∈ l`. -/
theorem mem_zip_map_self {α β : Type} (g : α → β) :
    ∀ (l : List α) (x : α × β), x ∈ l.zip (l.map g) → x.2 = g x.1 ∧ x.1 ∈ l := by
  intro l
  induction l with
  | nil => intro x hx; simp at hx
  | cons a l ih =>
    intro x hx
    simp only [List.map, List.zip_cons_cons] at hx
    rcases List.mem_cons.mp hx with rfl | hx2
    · exact ⟨rfl, List.mem_cons_self _ _⟩
    · rcases ih x hx2 with ⟨h1, h2⟩
      exact ⟨h1, List.mem_cons_of_mem _ h2⟩

/-- In a list with duplicate-free keys, entries are determined by their key. -/
theorem eq_of_fst_eq_of_nodup {β : Type} :
    ∀ (l : List (Str × β)), (l.map Prod.fst).Nodup →
      ∀ e1 ∈ l, ∀ e2 ∈ l, e1.1 = e2.1 → e1 = e2 := by
  intro l
  induction l with
  | nil => intro _ e1 h1; simp at h1
  | cons a l ih =>
    intro hnd e1 h1 e2 h2 he
    simp only [List.map, List.nodup_cons] at hnd
    rcases List.mem_cons.mp h1 with rfl | h1b <;> rcases List.mem_cons.mp h2 with rfl | h2b
    · rfl
    · exact absurd (he ▸ List.mem_map_of_mem Prod.fst h2b) hnd.1
    · exact absurd (he ▸ List.mem_map_of_mem Prod.fst h1b) hnd.1
    · exact ih hnd.2 e1 h1b e2 h2b he

/-- The seven taxonomy names are in strictly increasing taxonomy position. -/
theorem tax_names_pairwise :
    (THEME_KEYWORDS.map Prod.fst).Pairwise (fun a b => taxPos a < taxPos b) := by decide

/-- The seven taxonomy names are distinct. -/
theorem tax_names_nodup : (THEME_KEYWORDS.map Prod.fst).Nodup := by decide

/-- Names of the pre-sort theme list form a sublist of the taxonomy names. -/
theorem base_names_sublist :
    ∀ (l1 : List (Str × List Str)) (l2 : List ThemeAcc),
      List.Sublist
        (((l1.zip l2).filterMap
          (fun e => if 0 < e.2.count then some (mkTheme e.1.1 e.2) else none)).map
            ThemeInfo.name)
        (l1.map Prod.fst) := by
  intro l1
  induction l1 with
  | nil => intro l2; simp
  | cons a l1 ih =>
    intro l2
    cases l2 with
    | nil => simp
    | cons b l2 =>
      simp only [List.zip_cons_cons, List.filterMap_cons]
      by_cases hc : 0 < b.count
      · rw [if_pos hc]
        simp only [List.map]
        rw [mkTheme_name]
        exact (ih l2).cons₂ _
      · rw [if_neg hc]
        exact (ih l2).cons _

/-- Relative order in a tagged list transfers the list's `Pairwise` relation
to any pair whose tags are ordered. -/
theorem pairwise_of_tagged {α : Type} (R : α → α → Prop) :
    ∀ (l : List α) (i : Nat), l.Pairwise R →
      ∀ x ∈ tagFrom i l, ∀ y ∈ tagFrom i l, x.1 < y.1 → R x.2 y.2 := by
  intro l
  induction l with
  | nil => intro i _ x hx; simp [tagFrom] at hx
  | cons a l ih =>
    intro i hpw x hx y hy hxy
    rcases List.pairwise_cons.mp hpw with ⟨hhead, htail⟩
    rcases List.mem_cons.mp hx with rfl | hx2
    · rcases List.mem_cons.mp hy with rfl | hy2
      · omega
      · exact hhead y.2 (mem_tagFrom l (i + 1) y hy2).2
    · rcases List.mem_cons.mp hy with rfl | hy2
      · have := (mem_tagFrom l (i + 1) x hx2).1
        dsimp only at hxy
        omega
      · exact ih (i + 1) htail x hx2 y hy2 hxy

/-- A stable descending sort of a list whose original order strictly
increases some position function is pairwise lex-ordered: key descending,
position ascending on key ties. -/
theorem pySortDesc_pairwise_lex {α : Type} (key : α → Int) (pos : α → Nat) (l : List α)
    (hl : l.Pairwise (fun a b => pos a < pos b)) :
    (pySortDesc key l).Pairwise
      (fun a b => key b < key a ∨ (key a = key b ∧ pos a < pos b)) := by
  obtain ⟨s, hperm, hpw, heq⟩ := pySortDesc_stable key l
  have htagged := pairwise_of_tagged _ l 0 hl
  have hpw2 : s.Pairwise
      (fun x y => key y.2 < key x.2 ∨ (key x.2 = key y.2 ∧ pos x.2 < pos y.2)) := by
    refine hpw.imp_of_mem ?_
    intro x y hx hy hr
    rcases hr with h | ⟨h1, h2⟩
    · exact .inl h
    · exact .inr ⟨h1, htagged x (hperm.mem_iff.mpr hx) y (hperm.mem_iff.mpr hy) h2⟩
  rw [heq]
  exact List.pairwise_map.mpr hpw2

/-- C9: `extract_themes` returns at most 6 themes, only themes with positive
mention count, sorted by count descending with ties in taxonomy order. -/
theorem extract_themes_order (cfg : AnalyzerCfg) (processed : List ProcessedPost) :
    (extract_themes (analyze_posts cfg processed)).length ≤ 6 ∧
    (extract_themes (analyze_posts cfg processed)).Pairwise
      (fun a b => b.count < a.count ∨ (a.count = b.count ∧ taxPos a.name < taxPos b.name)) ∧
    ∀ t ∈ extract_themes (analyze_posts cfg processed), 0 < t.count := by
  have hdef : extract_themes (analyze_posts cfg processed) =
      (pySortDesc (fun t => (t.count : Int))
        ((THEME_KEYWORDS.zip (accsFor (analyze_posts cfg processed))).filterMap
          (fun e => if 0 < e.2.count then some (mkTheme e.1.1 e.2) else none))).take 6 := rfl
  refine ⟨?_, ?_, ?_⟩
  · rw [hdef, List.length_take]
    exact min_le_left _ _
  · -- pairwise lex
    have hbasepw : ((THEME_KEYWORDS.zip (accsFor (analyze_posts cfg processed))).filterMap
        (fun e => if 0 < e.2.count then some (mkTheme e.1.1 e.2) else none)).Pairwise
          (fun a b => taxPos a.name < taxPos b.name) := by
      have hsub := base_names_sublist THEME_KEYWORDS (accsFor (analyze_posts cfg processed))
      have hth := tax_names_pairwise.sublist hsub
      rw [List.pairwise_map] at hth
      exact hth
    have hlex := pySortDesc_pairwise_lex (fun t : ThemeInfo => (t.count : Int))
      (fun t => taxPos t.name) _ hbasepw
    rw [hdef]
    refine ((hlex.imp ?_).sublist (List.take_sublist _ _))
    intro a b hr
    rcases hr with h | ⟨h1, h2⟩
    · simp only at h
      exact .inl (by exact_mod_cast h)
    · simp only at h1
      exact .inr ⟨by exact_mod_cast h1, h2⟩
  · intro t ht
    rw [hdef] at ht
    have ht2 := (List.take_sublist _ _).subset ht
    rw [pySortDesc, List.mem_insertionSort] at ht2
    rcases List.mem_filterMap.mp ht2 with ⟨e, -, hsome⟩
    by_cases hc : 0 < e.2.count
    · rw [if_pos hc] at hsome
      have := Option.some.inj hsome
      rw [← this, mkTheme_count]
      exact hc
    · rw [if_neg hc] at hsome
      exact absurd hsome (by simp)

/-- Witness for C9 at a concrete one-post batch mentioning a battery. -/
theorem extract_themes_order_witness :
    (⟨str "Battery & Power", 1, str "mixed",
        str "Mixed feedback with " ++ natStr 1 ++ str " mentions.", [str "battery"]⟩ :
      ThemeInfo) ∈ extract_themes (analyze_posts cfgLex [ppBattery]) ∧
    0 < (⟨str "Battery & Power", 1, str "mixed",
        str "Mixed feedback with " ++ natStr 1 ++ str " mentions.", [str "battery"]⟩ :
      ThemeInfo).count := by
  have he : extract_themes (analyze_posts cfgLex [ppBattery]) =
      [⟨str "Battery & Power", 1, str "mixed",
        str "Mixed feedback with " ++ natStr 1 ++ str " mentions.", [str "battery"]⟩] := by
    decide
  have hm : (⟨str "Battery & Power", 1, str "mixed",
      str "Mixed feedback with " ++ natStr 1 ++ str " mentions.", [str "battery"]⟩ :
      ThemeInfo) ∈ extract_themes (analyze_posts cfgLex [ppBattery]) := by
    rw [he]
    exact List.mem_singleton.mpr rfl
  exact ⟨hm, (extract_themes_order cfgLex [ppBattery]).2.2 _ hm⟩

/-- C5 (amended): each returned theme's `mention_count` is the sum over the
batch of the number of that theme's keywords that occur (at least once, as a
substring of the lower-cased cleaned title + body; comments excluded) — each
keyword counted once per document regardless of how many times it occurs. -/
theorem theme_mention_count (cfg : AnalyzerCfg) (processed : List ProcessedPost)
    (nm : Str) (kws : List Str) (t : ThemeInfo)
    (he : (nm, kws) ∈ THEME_KEYWORDS)
    (ht : t ∈ extract_themes (analyze_posts cfg processed))
    (hname : t.name = nm) :
    t.count = ((analyze_posts cfg processed).map
      (fun p => kws.countP (fun kw => isSubstr kw (themeText p)))).sum := by
  have hdef : extract_themes (analyze_posts cfg processed) =
      (pySortDesc (fun t => (t.count : Int))
        ((THEME_KEYWORDS.zip (accsFor (analyze_posts cfg processed))).filterMap
          (fun e => if 0 < e.2.count then some (mkTheme e.1.1 e.2) else none))).take 6 := rfl
  rw [hdef] at ht
  have ht2 := (List.take_sublist _ _).subset ht
  rw [pySortDesc, List.mem_insertionSort] at ht2
  rcases List.mem_filterMap.mp ht2 with ⟨e, hmem, hsome⟩
  by_cases hc : 0 < e.2.count
  swap
  · rw [if_neg hc] at hsome
    exact absurd hsome (by simp)
  rw [if_pos hc] at hsome
  have hte := Option.some.inj hsome
  rw [accsFor_closed] at hmem
  rcases mem_zip_map_self _ THEME_KEYWORDS e hmem with ⟨hsnd, hfst⟩
  have hename : e.1.1 = nm := by
    rw [← hname, ← hte, mkTheme_name]
  have hentry : e.1 = (nm, kws) :=
    eq_of_fst_eq_of_nodup THEME_KEYWORDS tax_names_nodup e.1 hfst (nm, kws) he hename
  rw [← hte, mkTheme_count, hsnd, hentry]
  have := foldl_updAcc_count kws (analyze_posts cfg processed) ⟨0, 0, 0, 0, []⟩
  simp only [Nat.zero_add] at this
  rw [this]
  rfl

/-- Witness for C5's amended statement on the battery batch. -/
theorem theme_mention_count_witness :
    (str "Battery & Power",
      [str "battery", str "charge", str "charging", str "drain", str "power", str "sot",
       str "fast charging", str "wireless charging", str "dead", str "percentage"]) ∈
      THEME_KEYWORDS ∧
    (⟨str "Battery & Power", 1, str "mixed",
        str "Mixed feedback with " ++ natStr 1 ++ str " mentions.", [str "battery"]⟩ :
      ThemeInfo) ∈ extract_themes (analyze_posts cfgLex [ppBattery]) ∧
    (⟨str "Battery & Power", 1, str "mixed",
        str "Mixed feedback with " ++ natStr 1 ++ str " mentions.", [str "battery"]⟩ :
      ThemeInfo).count = ((analyze_posts cfgLex [ppBattery]).map
        (fun p => ([str "battery", str "charge", str "charging", str "drain", str "power",
          str "sot", str "fast charging", str "wireless charging", str "dead",
          str "percentage"] : List Str).countP
            (fun kw => isSubstr kw (themeText p)))).sum := by
  have he : extract_themes (analyze_posts cfgLex [ppBattery]) =
      [⟨str "Battery & Power", 1, str "mixed",
        str "Mixed feedback with " ++ natStr 1 ++ str " mentions.", [str "battery"]⟩] := by
    decide
  have hm : (⟨str "Battery & Power", 1, str "mixed",
      str "Mixed feedback with " ++ natStr 1 ++ str " mentions.", [str "battery"]⟩ :
      ThemeInfo) ∈ extract_themes (analyze_posts cfgLex [ppBattery]) := by
    rw [he]
    exact List.mem_singleton.mpr rfl
  exact ⟨by decide, hm,
    theme_mention_count cfgLex [ppBattery] (str "Battery & Power") _ _ (by decide) hm rfl⟩

/-- C5 counterexample: with one document whose cleaned title is
`"battery battery"`, the theme's `mention_count` is 1 (the keyword
`battery` is counted once for the document), while the total number of
keyword occurrences with multiplicity is 2 — `mention_count` is not the
occurrence total of the claim. -/
theorem theme_mention_count_cex :
    ((extract_themes (analyze_posts cfgLex [ppBatteryTwice])).map
      (fun t => (t.name, t.count))) = [(str "Battery & Power", 1)] ∧
    themeOccTotal battKeywords (analyze_posts cfgLex [ppBatteryTwice]) = 2 ∧
    (1 : Nat) ≠ 2 := by
  refine ⟨by decide, by decide, by decide⟩

end RedditInsight
